import Mathlib

/-!
Verification development for the FunscriptVideo (FSV) container engine.

The Rust sources under `src/` are shallowly embedded below:

* `semver.rs`   — `Version`, `Version.parse`, the component-wise ordering;
* `metadata.rs` — the manifest schema (`FsvMetadata` and its nested entities),
  modelled together with its serde (de)serialization: every entity carries an
  `extra` association list mirroring the `#[serde(flatten)]` extension bag,
  `#[serde(default)]` fields tolerate absence, all other fields are required;
* `funscript.rs` — `Funscript` and its deserialization;
* `file_util.rs` — `get_funscript_duration`;
* `fsv.rs`      — `validate_fsv`, `validate_item_contents`, `open_fsv`,
  `rebuild_archive`, `rebuild_fsv`, `add_to_fsv`, `add_creator_to_fsv`,
  `remove_from_fsv`, `get_file_hash`, `AXES`, and the state/error enums.

The filesystem is a map from paths to file data; a ZIP archive is its central
directory: a list of named entries, each with an access status (readable,
I/O-broken, encrypted, or otherwise unreadable) abstracting the outcomes of
`zip::ZipArchive::by_name`/`by_index`.  File bytes are represented by their
parse outcome: `FileData.jsonFile j` is a text file whose content is the JSON
document `j`, `FileData.rawFile s` is opaque non-JSON data, and
`FileData.zipFile es` is a ZIP archive (ZIP bytes are never valid JSON, and
JSON text is never a valid ZIP, so the classification is faithful).

External collaborators excluded by the spec (the creator store, the ffprobe
duration probe, interactive prompting, SHA-256 hashing) enter the embedded
operations as explicit arguments: the resolved creator lookup result, a
duration oracle, and a hash oracle.

String primitives (`trim`, `splitn(2, '.')`, `split('.')`, integer parsing,
integer printing) are re-implemented over character lists so that every
definition evaluates inside the kernel.
-/

/-! ## String utilities -/

/-- Drop whitespace from both ends of a character list (Rust `str::trim`). -/
def chTrim (cs : List Char) : List Char :=
  ((cs.dropWhile Char.isWhitespace).reverse.dropWhile Char.isWhitespace).reverse

/-- Rust `str::trim`. -/
def strTrim (s : String) : String :=
  String.mk (chTrim s.data)

/-- Split a character list at the first '.', if any (Rust `splitn(2, '.')`). -/
def chSplitDot (cs : List Char) : List Char × Option (List Char) :=
  match cs with
  | [] => ([], none)
  | c :: rest =>
    if c = '.' then ([], some rest)
    else
      let r := chSplitDot rest
      (c :: r.1, r.2)

/-- Rust `s.splitn(2, '.')`: the part before the first '.' and, when a '.'
occurs, the remainder after it. -/
def strSplitDot (s : String) : String × Option String :=
  let r := chSplitDot s.data
  (String.mk r.1, r.2.map String.mk)

/-- Split a character list at every '.' (Rust `split('.')`). -/
def chSplitAll (cs : List Char) : List (List Char) :=
  match cs with
  | [] => [[]]
  | c :: rest =>
    let r := chSplitAll rest
    if c = '.' then [] :: r
    else
      match r with
      | [] => [[c]]
      | h :: t => (c :: h) :: t

/-- Rust `s.split('.').collect::<Vec<_>>()`. -/
def strSplitAll (s : String) : List String :=
  (chSplitAll s.data).map String.mk

/-- Digits-only numeral value of a character list, `none` when empty or when a
non-digit occurs. -/
def chToNat? (cs : List Char) : Option Nat :=
  if cs.isEmpty then none
  else if cs.all Char.isDigit then
    some (cs.foldl (fun acc c => acc * 10 + (c.toNat - 48)) 0)
  else none

/-- Rust `u32::from_str`: an optional leading '+', then decimal digits, with
the `u32` range bound. -/
def parseU32 (s : String) : Option Nat :=
  let cs :=
    match s.data with
    | '+' :: rest => rest
    | cs => cs
  match chToNat? cs with
  | some n => if n ≤ 4294967295 then some n else none
  | none => none

/-- Decimal digits of a natural number, fuel-driven for kernel reduction. -/
def natToStrCore (fuel : Nat) (n : Nat) (acc : List Char) : List Char :=
  match fuel with
  | 0 => acc
  | fuel + 1 =>
    let acc := Char.ofNat (48 + n % 10) :: acc
    if n / 10 = 0 then acc else natToStrCore fuel (n / 10) acc

/-- Decimal rendering of a natural number. -/
def natToStr (n : Nat) : String :=
  String.mk (natToStrCore (n + 1) n [])

/-! ## JSON values -/

/-- JSON documents; objects are ordered association lists, mirroring the
serde_json values the manifest code manipulates. -/
inductive Json where
  | null
  | bool (b : Bool)
  | num (n : Int)
  | str (s : String)
  | arr (xs : List Json)
  | obj (fields : List (String × Json))

/-- First value bound to key `k` in a JSON object field list. -/
def getField (fields : List (String × Json)) (k : String) : Option Json :=
  ((fields.find? (fun p => p.1 == k)).map (fun p => p.2))

/-! ## semver.rs -/

/-- `semver.rs`: `SemVerError`. -/
inductive SemVerError where
  | InvalidFormat
  | InvalidNumber (fragment : String)
deriving DecidableEq

/-- `semver.rs`: `Version { major, minor, patch }`. -/
structure Version where
  major : Nat
  minor : Nat
  patch : Nat
deriving DecidableEq

/-- `semver.rs`: `Version::parse` — exactly three dot-separated fields, each a
`u32` numeral. -/
def Version.parse (s : String) : Except SemVerError Version :=
  match strSplitAll s with
  | [a, b, c] =>
    match parseU32 a with
    | none => .error (.InvalidNumber a)
    | some major =>
      match parseU32 b with
      | none => .error (.InvalidNumber b)
      | some minor =>
        match parseU32 c with
        | none => .error (.InvalidNumber c)
        | some patch => .ok ⟨major, minor, patch⟩
  | _ => .error .InvalidFormat

/-- `semver.rs`: the `Ord` implementation — lexicographic on
(major, minor, patch). -/
def Version.lt (a b : Version) : Bool :=
  if a.major ≠ b.major then a.major < b.major
  else if a.minor ≠ b.minor then a.minor < b.minor
  else a.patch < b.patch

/-- Component-wise ≤ on versions, spelling out "inside the closed interval"
independently of `Version.lt`. -/
def Version.le (a b : Version) : Prop :=
  a.major < b.major ∨
    (a.major = b.major ∧
      (a.minor < b.minor ∨ (a.minor = b.minor ∧ a.patch ≤ b.patch)))

instance (a b : Version) : Decidable (Version.le a b) := by
  unfold Version.le
  infer_instance

/-- `semver.rs`: the `Display`/`Serialize` rendering "major.minor.patch". -/
def Version.toString (v : Version) : String :=
  natToStr v.major ++ "." ++ natToStr v.minor ++ "." ++ natToStr v.patch

theorem Version.lt_iff_not_le (a b : Version) :
    Version.lt a b = true ↔ ¬ Version.le b a := by
  unfold Version.lt Version.le
  split
  · next h =>
    constructor
    · intro hlt hle
      simp only [decide_eq_true_eq] at hlt
      omega
    · intro hle
      simp only [decide_eq_true_eq]
      omega
  · next h =>
    split
    · next h2 =>
      constructor
      · intro hlt hle
        simp only [decide_eq_true_eq] at hlt
        omega
      · intro hle
        simp only [decide_eq_true_eq]
        omega
    · next h2 =>
      constructor
      · intro hlt hle
        simp only [decide_eq_true_eq] at hlt
        omega
      · intro hle
        simp only [decide_eq_true_eq]
        omega

/-! ## metadata.rs — the manifest schema -/

/-- `metadata.rs`: `CreatorInfo { name, socials, extra }`. -/
structure CreatorInfo where
  name : String
  socials : List String
  extra : List (String × Json)

/-- `metadata.rs`: `WorkCreatorsMetadata { work_name, source_url, creator_info, extra }`. -/
structure WorkCreatorsMetadata where
  work_name : String
  source_url : String
  creator_info : CreatorInfo
  extra : List (String × Json)

/-- `metadata.rs`: `CreatorsMetadata { videos, scripts, subtitles, extra }`. -/
structure CreatorsMetadata where
  videos : List WorkCreatorsMetadata
  scripts : List WorkCreatorsMetadata
  subtitles : List WorkCreatorsMetadata
  extra : List (String × Json)

/-- `metadata.rs`: `CreatorsMetadata::new` / `Default`. -/
def CreatorsMetadata.new : CreatorsMetadata :=
  ⟨[], [], [], []⟩

/-- `metadata.rs`: `CreatorsMetadata::is_empty`. -/
def CreatorsMetadata.is_empty (c : CreatorsMetadata) : Bool :=
  c.videos.isEmpty && c.scripts.isEmpty && c.subtitles.isEmpty

/-- `metadata.rs`: `VideoFormat { name, description, duration, checksum, extra }`. -/
structure VideoFormat where
  name : String
  description : String
  duration : Nat
  checksum : String
  extra : List (String × Json)

/-- `metadata.rs`: `ScriptVariant { name, description, additional_axes,
duration, start_offset, checksum, extra }`. -/
structure ScriptVariant where
  name : String
  description : String
  additional_axes : List String
  duration : Nat
  start_offset : Int
  checksum : String
  extra : List (String × Json)

/-- `metadata.rs`: `SubtitleTrack { name, language, description, checksum, extra }`. -/
structure SubtitleTrack where
  name : String
  language : String
  description : String
  checksum : String
  extra : List (String × Json)

/-- `metadata.rs`: `FsvMetadata` — the manifest root. -/
structure FsvMetadata where
  format_version : Version
  extensions : List String
  tags : List String
  title : String
  creators : CreatorsMetadata
  video_formats : List VideoFormat
  script_variants : List ScriptVariant
  subtitle_tracks : List SubtitleTrack
  extra : List (String × Json)

/-- `metadata.rs`: `FsvMetadata::new`. -/
def FsvMetadata.new (v : Version) : FsvMetadata :=
  ⟨v, [], [], "", CreatorsMetadata.new, [], [], [], []⟩

/-- `metadata.rs`: `FsvMetadata::add_video_creator`. -/
def FsvMetadata.add_video_creator (m : FsvMetadata) (w : WorkCreatorsMetadata) : FsvMetadata :=
  { m with creators := { m.creators with videos := m.creators.videos ++ [w] } }

/-- `metadata.rs`: `FsvMetadata::add_script_creator`. -/
def FsvMetadata.add_script_creator (m : FsvMetadata) (w : WorkCreatorsMetadata) : FsvMetadata :=
  { m with creators := { m.creators with scripts := m.creators.scripts ++ [w] } }

/-- `metadata.rs`: `FsvMetadata::add_subtitle_creator`. -/
def FsvMetadata.add_subtitle_creator (m : FsvMetadata) (w : WorkCreatorsMetadata) : FsvMetadata :=
  { m with creators := { m.creators with subtitles := m.creators.subtitles ++ [w] } }

/-- `metadata.rs`: `FsvMetadata::add_video_format`. -/
def FsvMetadata.add_video_format (m : FsvMetadata) (vf : VideoFormat) : FsvMetadata :=
  { m with video_formats := m.video_formats ++ [vf] }

/-- `metadata.rs`: `FsvMetadata::add_script_variant`. -/
def FsvMetadata.add_script_variant (m : FsvMetadata) (sv : ScriptVariant) : FsvMetadata :=
  { m with script_variants := m.script_variants ++ [sv] }

/-- `metadata.rs`: `FsvMetadata::add_subtitle_track`. -/
def FsvMetadata.add_subtitle_track (m : FsvMetadata) (st : SubtitleTrack) : FsvMetadata :=
  { m with subtitle_tracks := m.subtitle_tracks ++ [st] }

/-! ## Manifest (de)serialization

The derived serde impls are embedded field by field.  Deserialization reads
fields in declaration order, requires fields without `#[serde(default)]`,
defaults the rest, and collects every unrecognized key of the object into the
entity's `extra` bag (`#[serde(flatten)] HashMap<String, Value>`).
Serialization writes the declared fields in order followed by the `extra`
bag verbatim. -/

/-- Deserialization faults, mirroring the serde_json error classes the code
distinguishes: `Version::parse` failures surface with the messages "Invalid
version format" / "Invalid number in version: _" (which `validate_fsv` tests
for), and every other fault is an ordinary serde message. -/
inductive DErr where
  | missingField (f : String)
  | typeError (f : String)
  | versionFormat
  | versionNumber (fragment : String)
deriving DecidableEq

/-- The serde error message carried by each deserialization fault. -/
def DErr.message : DErr → String
  | .missingField f => "missing field " ++ f
  | .typeError f => "invalid type for field " ++ f
  | .versionFormat => "Invalid version format"
  | .versionNumber s => "Invalid number in version: " ++ s

/-- Required string field. -/
def reqStr (fields : List (String × Json)) (k : String) : Except DErr String :=
  match getField fields k with
  | some (.str s) => .ok s
  | some _ => .error (.typeError k)
  | none => .error (.missingField k)

/-- Optional string field, defaulting to the empty string. -/
def optStr (fields : List (String × Json)) (k : String) : Except DErr String :=
  match getField fields k with
  | some (.str s) => .ok s
  | some _ => .error (.typeError k)
  | none => .ok ""

/-- Optional `u64` field, defaulting to 0. -/
def optU64 (fields : List (String × Json)) (k : String) : Except DErr Nat :=
  match getField fields k with
  | some (.num n) =>
    if 0 ≤ n ∧ n ≤ 18446744073709551615 then .ok n.toNat else .error (.typeError k)
  | some _ => .error (.typeError k)
  | none => .ok 0

/-- Optional `i64` field, defaulting to 0. -/
def optI64 (fields : List (String × Json)) (k : String) : Except DErr Int :=
  match getField fields k with
  | some (.num n) =>
    if -9223372036854775808 ≤ n ∧ n ≤ 9223372036854775807 then .ok n else .error (.typeError k)
  | some _ => .error (.typeError k)
  | none => .ok 0

/-- String content of a JSON value, when it is a string. -/
def jsonStr? : Json → Option String
  | .str s => some s
  | _ => none

/-- Optional `Vec<String>` field, defaulting to the empty list. -/
def optStrArr (fields : List (String × Json)) (k : String) : Except DErr (List String) :=
  match getField fields k with
  | some (.arr xs) =>
    match xs.mapM jsonStr? with
    | some l => .ok l
    | none => .error (.typeError k)
  | some _ => .error (.typeError k)
  | none => .ok []

/-- The unrecognized keys of an object, in order: the `#[serde(flatten)]`
extension bag. -/
def extraOf (fields : List (String × Json)) (known : List String) : List (String × Json) :=
  fields.filter (fun p => !(known.contains p.1))

def knownCreatorInfoKeys : List String := ["name", "socials"]

def knownWorkCreatorsKeys : List String := ["work_name", "source_url", "creator_info"]

def knownCreatorsMetadataKeys : List String := ["videos", "scripts", "subtitles"]

def knownVideoFormatKeys : List String := ["name", "description", "duration", "checksum"]

def knownScriptVariantKeys : List String :=
  ["name", "description", "additional_axes", "duration", "start_offset", "checksum"]

def knownSubtitleTrackKeys : List String := ["name", "language", "description", "checksum"]

def knownFsvMetadataKeys : List String :=
  ["format_version", "extensions", "tags", "title", "creators",
   "video_formats", "script_variants", "subtitle_tracks"]

/-- serde deserialization of `CreatorInfo`: `name` required, `socials`
defaulted, the rest flattened into `extra`. -/
def deserCreatorInfo : Json → Except DErr CreatorInfo
  | .obj fields =>
    match reqStr fields "name" with
    | .error e => .error e
    | .ok name =>
      match optStrArr fields "socials" with
      | .error e => .error e
      | .ok socials => .ok ⟨name, socials, extraOf fields knownCreatorInfoKeys⟩
  | _ => .error (.typeError "creator_info")

/-- serde deserialization of `WorkCreatorsMetadata`: `work_name`, `source_url`
and `creator_info` required, the rest flattened into `extra`. -/
def deserWorkCreators : Json → Except DErr WorkCreatorsMetadata
  | .obj fields =>
    match reqStr fields "work_name" with
    | .error e => .error e
    | .ok work_name =>
      match reqStr fields "source_url" with
      | .error e => .error e
      | .ok source_url =>
        match getField fields "creator_info" with
        | none => .error (.missingField "creator_info")
        | some cj =>
          match deserCreatorInfo cj with
          | .error e => .error e
          | .ok ci => .ok ⟨work_name, source_url, ci, extraOf fields knownWorkCreatorsKeys⟩
  | _ => .error (.typeError "work_creators")

/-- Optional array-of-entities field, defaulting to the empty list. -/
def optEntityArr {α : Type} (f : Json → Except DErr α) (fields : List (String × Json))
    (k : String) : Except DErr (List α) :=
  match getField fields k with
  | some (.arr xs) => xs.mapM f
  | some _ => .error (.typeError k)
  | none => .ok []

/-- Required array-of-entities field. -/
def reqEntityArr {α : Type} (f : Json → Except DErr α) (fields : List (String × Json))
    (k : String) : Except DErr (List α) :=
  match getField fields k with
  | some (.arr xs) => xs.mapM f
  | some _ => .error (.typeError k)
  | none => .error (.missingField k)

/-- serde deserialization of `CreatorsMetadata`: all three lists defaulted,
the rest flattened into `extra`. -/
def deserCreatorsMetadata : Json → Except DErr CreatorsMetadata
  | .obj fields =>
    match optEntityArr deserWorkCreators fields "videos" with
    | .error e => .error e
    | .ok videos =>
      match optEntityArr deserWorkCreators fields "scripts" with
      | .error e => .error e
      | .ok scripts =>
        match optEntityArr deserWorkCreators fields "subtitles" with
        | .error e => .error e
        | .ok subtitles =>
          .ok ⟨videos, scripts, subtitles, extraOf fields knownCreatorsMetadataKeys⟩
  | _ => .error (.typeError "creators")

/-- serde deserialization of `VideoFormat`: `name` required, `description`,
`duration`, `checksum` defaulted, the rest flattened into `extra`. -/
def deserVideoFormat : Json → Except DErr VideoFormat
  | .obj fields =>
    match reqStr fields "name" with
    | .error e => .error e
    | .ok name =>
      match optStr fields "description" with
      | .error e => .error e
      | .ok description =>
        match optU64 fields "duration" with
        | .error e => .error e
        | .ok duration =>
          match optStr fields "checksum" with
          | .error e => .error e
          | .ok checksum =>
            .ok ⟨name, description, duration, checksum, extraOf fields knownVideoFormatKeys⟩
  | _ => .error (.typeError "video_format")

/-- serde deserialization of `ScriptVariant`: `name` required, the other
declared fields defaulted, the rest flattened into `extra`. -/
def deserScriptVariant : Json → Except DErr ScriptVariant
  | .obj fields =>
    match reqStr fields "name" with
    | .error e => .error e
    | .ok name =>
      match optStr fields "description" with
      | .error e => .error e
      | .ok description =>
        match optStrArr fields "additional_axes" with
        | .error e => .error e
        | .ok additional_axes =>
          match optU64 fields "duration" with
          | .error e => .error e
          | .ok duration =>
            match optI64 fields "start_offset" with
            | .error e => .error e
            | .ok start_offset =>
              match optStr fields "checksum" with
              | .error e => .error e
              | .ok checksum =>
                .ok ⟨name, description, additional_axes, duration, start_offset, checksum,
                  extraOf fields knownScriptVariantKeys⟩
  | _ => .error (.typeError "script_variant")

/-- serde deserialization of `SubtitleTrack`: `name` and `language` required,
`description` and `checksum` defaulted, the rest flattened into `extra`. -/
def deserSubtitleTrack : Json → Except DErr SubtitleTrack
  | .obj fields =>
    match reqStr fields "name" with
    | .error e => .error e
    | .ok name =>
      match reqStr fields "language" with
      | .error e => .error e
      | .ok language =>
        match optStr fields "description" with
        | .error e => .error e
        | .ok description =>
          match optStr fields "checksum" with
          | .error e => .error e
          | .ok checksum =>
            .ok ⟨name, language, description, checksum, extraOf fields knownSubtitleTrackKeys⟩
  | _ => .error (.typeError "subtitle_track")

/-- serde deserialization of the manifest root `FsvMetadata`: `format_version`
(parsed through `Version::parse`), `video_formats` and `script_variants` are
required; `extensions`, `tags`, `title`, `creators` and `subtitle_tracks`
default when absent; every unrecognized top-level key lands in `extra`. -/
def deserFsvMetadata : Json → Except DErr FsvMetadata
  | .obj fields =>
    match getField fields "format_version" with
    | none => .error (.missingField "format_version")
    | some (.str vs) =>
      match Version.parse vs with
      | .error .InvalidFormat => .error .versionFormat
      | .error (.InvalidNumber frag) => .error (.versionNumber frag)
      | .ok format_version =>
        match optStrArr fields "extensions" with
        | .error e => .error e
        | .ok extensions =>
          match optStrArr fields "tags" with
          | .error e => .error e
          | .ok tags =>
            match optStr fields "title" with
            | .error e => .error e
            | .ok title =>
              match
                (match getField fields "creators" with
                 | none => Except.ok CreatorsMetadata.new
                 | some cj => deserCreatorsMetadata cj) with
              | .error e => .error e
              | .ok creators =>
                match reqEntityArr deserVideoFormat fields "video_formats" with
                | .error e => .error e
                | .ok video_formats =>
                  match reqEntityArr deserScriptVariant fields "script_variants" with
                  | .error e => .error e
                  | .ok script_variants =>
                    match optEntityArr deserSubtitleTrack fields "subtitle_tracks" with
                    | .error e => .error e
                    | .ok subtitle_tracks =>
                      .ok ⟨format_version, extensions, tags, title, creators,
                        video_formats, script_variants, subtitle_tracks,
                        extraOf fields knownFsvMetadataKeys⟩
    | some _ => .error (.typeError "format_version")
  | _ => .error (.typeError "metadata")

/-- serde serialization of `CreatorInfo`: declared fields first, then the
extension bag verbatim. -/
def serCreatorInfoFields (c : CreatorInfo) : List (String × Json) :=
  [("name", .str c.name), ("socials", .arr (c.socials.map Json.str))] ++ c.extra

def serCreatorInfo (c : CreatorInfo) : Json :=
  .obj (serCreatorInfoFields c)

/-- serde serialization of `WorkCreatorsMetadata`. -/
def serWorkCreatorsFields (w : WorkCreatorsMetadata) : List (String × Json) :=
  [("work_name", .str w.work_name), ("source_url", .str w.source_url),
   ("creator_info", serCreatorInfo w.creator_info)] ++ w.extra

def serWorkCreators (w : WorkCreatorsMetadata) : Json :=
  .obj (serWorkCreatorsFields w)

/-- serde serialization of `CreatorsMetadata`. -/
def serCreatorsMetadataFields (c : CreatorsMetadata) : List (String × Json) :=
  [("videos", .arr (c.videos.map serWorkCreators)),
   ("scripts", .arr (c.scripts.map serWorkCreators)),
   ("subtitles", .arr (c.subtitles.map serWorkCreators))] ++ c.extra

def serCreatorsMetadata (c : CreatorsMetadata) : Json :=
  .obj (serCreatorsMetadataFields c)

/-- serde serialization of `VideoFormat`. -/
def serVideoFormatFields (vf : VideoFormat) : List (String × Json) :=
  [("name", .str vf.name), ("description", .str vf.description),
   ("duration", .num vf.duration), ("checksum", .str vf.checksum)] ++ vf.extra

def serVideoFormat (vf : VideoFormat) : Json :=
  .obj (serVideoFormatFields vf)

/-- serde serialization of `ScriptVariant`. -/
def serScriptVariantFields (sv : ScriptVariant) : List (String × Json) :=
  [("name", .str sv.name), ("description", .str sv.description),
   ("additional_axes", .arr (sv.additional_axes.map Json.str)),
   ("duration", .num sv.duration), ("start_offset", .num sv.start_offset),
   ("checksum", .str sv.checksum)] ++ sv.extra

def serScriptVariant (sv : ScriptVariant) : Json :=
  .obj (serScriptVariantFields sv)

/-- serde serialization of `SubtitleTrack`. -/
def serSubtitleTrackFields (st : SubtitleTrack) : List (String × Json) :=
  [("name", .str st.name), ("language", .str st.language),
   ("description", .str st.description), ("checksum", .str st.checksum)] ++ st.extra

def serSubtitleTrack (st : SubtitleTrack) : Json :=
  .obj (serSubtitleTrackFields st)

/-- serde serialization of the manifest root `FsvMetadata`. -/
def serFsvMetadataFields (m : FsvMetadata) : List (String × Json) :=
  [("format_version", .str m.format_version.toString),
   ("extensions", .arr (m.extensions.map Json.str)),
   ("tags", .arr (m.tags.map Json.str)),
   ("title", .str m.title),
   ("creators", serCreatorsMetadata m.creators),
   ("video_formats", .arr (m.video_formats.map serVideoFormat)),
   ("script_variants", .arr (m.script_variants.map serScriptVariant)),
   ("subtitle_tracks", .arr (m.subtitle_tracks.map serSubtitleTrack))] ++ m.extra

def serFsvMetadata (m : FsvMetadata) : Json :=
  .obj (serFsvMetadataFields m)

/-! ## funscript.rs and file_util.rs -/

/-- `funscript.rs`: `FunscriptAction { at, pos }`; the source field `at` is a
Lean keyword, so it is written `at_ms` here. -/
structure FunscriptAction where
  at_ms : Nat
  pos : Nat
deriving DecidableEq

/-- `funscript.rs`: `FunscriptMetadata`. -/
structure FunscriptMetadata where
  creator : String
  description : String
  duration : Nat
  license : String
  notes : String
  performers : List String
  script_url : String
  tags : List String
  title : String
  type_name : String
  video_url : String
deriving DecidableEq

/-- `funscript.rs`: `Funscript { actions, inverted, metadata, range, version }`. -/
structure Funscript where
  actions : List FunscriptAction
  inverted : Bool
  metadata : Option FunscriptMetadata
  range : Nat
  version : String
deriving DecidableEq

/-- Required `u64` field. -/
def reqU64 (fields : List (String × Json)) (k : String) : Except DErr Nat :=
  match getField fields k with
  | some (.num n) =>
    if 0 ≤ n ∧ n ≤ 18446744073709551615 then .ok n.toNat else .error (.typeError k)
  | some _ => .error (.typeError k)
  | none => .error (.missingField k)

/-- Required `bool` field. -/
def reqBool (fields : List (String × Json)) (k : String) : Except DErr Bool :=
  match getField fields k with
  | some (.bool b) => .ok b
  | some _ => .error (.typeError k)
  | none => .error (.missingField k)

/-- serde deserialization of `FunscriptAction`: `at` and `pos` required. -/
def deserFunscriptAction : Json → Except DErr FunscriptAction
  | .obj fields =>
    match reqU64 fields "at" with
    | .error e => .error e
    | .ok a =>
      match reqU64 fields "pos" with
      | .error e => .error e
      | .ok p => .ok ⟨a, p⟩
  | _ => .error (.typeError "action")

/-- serde deserialization of `FunscriptMetadata`: every field required. -/
def deserFunscriptMetadata : Json → Except DErr FunscriptMetadata
  | .obj fields =>
    match reqStr fields "creator" with
    | .error e => .error e
    | .ok creator =>
      match reqStr fields "description" with
      | .error e => .error e
      | .ok description =>
        match reqU64 fields "duration" with
        | .error e => .error e
        | .ok duration =>
          match reqStr fields "license" with
          | .error e => .error e
          | .ok license =>
            match reqStr fields "notes" with
            | .error e => .error e
            | .ok notes =>
              match optStrArr fields "performers" with
              | .error e => .error e
              | .ok performers =>
                match reqStr fields "script_url" with
                | .error e => .error e
                | .ok script_url =>
                  match optStrArr fields "tags" with
                  | .error e => .error e
                  | .ok tags =>
                    match reqStr fields "title" with
                    | .error e => .error e
                    | .ok title =>
                      match reqStr fields "type" with
                      | .error e => .error e
                      | .ok type_name =>
                        match reqStr fields "video_url" with
                        | .error e => .error e
                        | .ok video_url =>
                          .ok ⟨creator, description, duration, license, notes,
                            performers, script_url, tags, title, type_name, video_url⟩
  | _ => .error (.typeError "funscript_metadata")

/-- serde deserialization of `Funscript`: `actions`, `inverted`, `range`,
`version` required; `metadata` defaults to `None`. -/
def deserFunscript : Json → Except DErr Funscript
  | .obj fields =>
    match
      (match getField fields "actions" with
       | some (.arr xs) => xs.mapM deserFunscriptAction
       | some _ => Except.error (DErr.typeError "actions")
       | none => Except.error (DErr.missingField "actions")) with
    | .error e => .error e
    | .ok actions =>
      match reqBool fields "inverted" with
      | .error e => .error e
      | .ok inverted =>
        match
          (match getField fields "metadata" with
           | none => Except.ok (Option.none (α := FunscriptMetadata))
           | some mj =>
             match deserFunscriptMetadata mj with
             | .error e => Except.error e
             | .ok fm => Except.ok (some fm)) with
        | .error e => .error e
        | .ok meta =>
          match reqU64 fields "range" with
          | .error e => .error e
          | .ok range =>
            match reqStr fields "version" with
            | .error e => .error e
            | .ok version => .ok ⟨actions, inverted, meta, range, version⟩
  | _ => .error (.typeError "funscript")

/-- `file_util.rs`: `get_funscript_duration` — the maximum action timestamp,
failing when the funscript has no actions.  The error is
`GetDurationError::FunscriptMissingActions`, embedded below in the unified
error type. -/
def get_funscript_duration (f : Funscript) : Except Unit Nat :=
  match (f.actions.map (fun a => a.at_ms)).max? with
  | some d => .ok d
  | none => .error ()

/-! ## fsv.rs — state and error enums -/

/-- `fsv.rs`: `ItemType`. -/
inductive ItemType where
  | Video
  | Script
  | Subtitle
deriving DecidableEq

/-- `fsv.rs`: `EntryType`. -/
inductive EntryType where
  | Creator
  | Video
  | Script
  | Subtitle
deriving DecidableEq

/-- `fsv.rs`: `ContentIncompleteReason`. -/
inductive ContentIncompleteReason where
  | UnableToReadItem (t : ItemType)
  | MissingItemFile (t : ItemType)
  | ItemPasswordProtected (t : ItemType)
  | DuplicateItemEntry (t : ItemType)
deriving DecidableEq

/-- `fsv.rs`: `MetadataInvalidReason`. -/
inductive MetadataInvalidReason where
  | InvalidFormatVersion
  | MalformedJson (detail : String)
  | UnsupportedFormatVersion (v : Version)
  | MissingVideoFormat
  | MissingScriptVariant
deriving DecidableEq

/-- `fsv.rs`: `FsvState`. -/
inductive FsvState where
  | Valid
  | ContentIncomplete (reason : ContentIncompleteReason)
  | MetadataInvalid (reason : MetadataInvalidReason)
deriving DecidableEq

/-- The error cases of the `Fsv*Error` enums of `fsv.rs`, unified: the Rust
code spreads them over `FsvValidationError`, `FsvError`, `FsvAddError`,
`FsvRemoveError`, `FsvRebuildError` with `#[from]` conversions.  `io` covers
`std::io::Error`, `zip` covers `zip::result::ZipError`, `serdeJson` covers
`serde_json::Error`. -/
inductive FsvErr where
  | io
  | zip
  | serdeJson
  | metadataNotFound
  | entryNotFound (id : String)
  | creatorInfoNotFound (key : String)
  | dbClient
  | funscriptMissingActions
  | getDuration
deriving DecidableEq

/-- `fsv.rs`: `LATEST_FSV_FORMAT_VERSION = Version::new(1, 0, 0)`. -/
def LATEST_FSV_FORMAT_VERSION : Version := ⟨1, 0, 0⟩

/-- `fsv.rs`: `MINIMUM_FSV_FORMAT_VERSION = Version::new(1, 0, 0)`. -/
def MINIMUM_FSV_FORMAT_VERSION : Version := ⟨1, 0, 0⟩

/-- `fsv.rs`: the fixed registered axis-suffix list `AXES`. -/
def AXES : List String :=
  ["pitch", "roll", "suckManual", "surge", "sway", "twist", "valve", "vib",
   "lube", "suck", "max"]

/-! ## Filesystem and archive model -/

/-- Paths: a directory, a file stem, and an optional extension.
`Path::with_extension` replaces the extension; `Path::file_name` is
"stem.ext". -/
structure FPath where
  dir : String
  stem : String
  ext : Option String
deriving DecidableEq

/-- Rust `Path::with_extension`. -/
def FPath.withExtension (p : FPath) (e : String) : FPath :=
  ⟨p.dir, p.stem, some e⟩

/-- Rust `Path::file_name` rendered as a string. -/
def FPath.fileName (p : FPath) : String :=
  match p.ext with
  | some e => p.stem ++ "." ++ e
  | none => p.stem

/-- Outcome of accessing one archive entry, abstracting
`zip::ZipArchive::by_name` / `by_index`: readable, `ZipError::Io`,
`ZipError::InvalidPassword`, or any other `ZipError`. -/
inductive EntryStatus where
  | readable
  | ioError
  | encrypted
  | unsupported
deriving DecidableEq

/-- Decompressed bytes of an archive entry, classified by parse outcome. -/
inductive EntryContent where
  | jsonData (j : Json)
  | rawData (s : String)

/-- One entry of a ZIP central directory. -/
structure ZipEntry where
  name : String
  status : EntryStatus
  content : EntryContent

/-- Bytes of a file on disk, classified by parse outcome: a ZIP archive, a
text file holding a JSON document, or opaque non-JSON data. -/
inductive FileData where
  | zipFile (entries : List ZipEntry)
  | jsonFile (j : Json)
  | rawFile (s : String)

/-- The filesystem: a partial map from paths to file bytes. -/
def FS : Type := FPath → Option FileData

/-- Write (create or truncate) a file. -/
def setFile (fs : FS) (p : FPath) (d : FileData) : FS :=
  fun q => if q = p then some d else fs q

/-- `std::fs::rename src dst`: `dst` now holds the bytes of `src` and `src` is
gone (renaming a path onto itself leaves it in place). -/
def renameFile (fs : FS) (src dst : FPath) : FS :=
  fun q => if q = dst then fs src else if q = src then none else fs q

/-- `by_name`: the first central-directory entry with the given name. -/
def byName (entries : List ZipEntry) (n : String) : Option ZipEntry :=
  entries.find? (fun e => e.name == n)

/-- Names of the entries of a ZIP file, used to observe archive contents. -/
def zipEntryNames : Option FileData → List String
  | some (.zipFile entries) => entries.map (fun e => e.name)
  | _ => []

/-- Reading a file as text and parsing it as JSON: succeeds exactly on JSON
text files (ZIP bytes and opaque data never parse as JSON). -/
def fileAsJson : FileData → Option Json
  | .jsonFile j => some j
  | _ => none

/-- Storing a disk file as an archive entry: JSON text keeps its document,
anything else is opaque bytes. -/
def fileToEntryContent : FileData → EntryContent
  | .jsonFile j => .jsonData j
  | .rawFile s => .rawData s
  | .zipFile _ => .rawData "zip-bytes"

/-- `fsv.rs`: `get_file_hash` — "sha256:" prefix plus the hex digest; the
digest itself comes from the SHA-256 collaborator, passed in as `hashHex`. -/
def get_file_hash (hashHex : FileData → String) (d : FileData) : String :=
  "sha256:" ++ hashHex d

/-! ## fsv.rs — validation -/

/-- `fsv.rs`: `validate_item_contents`, recursing over the descriptor names of
one category.  Blank names are skipped; a name absent from the archive is
`MissingItemFile`, an I/O-broken entry `UnableToReadItem`, an encrypted entry
`ItemPasswordProtected`, any other access fault a hard `Zip` error.  The
source also tracks a `seen` set, but a repeated name only emits a warning
there: the duplicate check has no effect on the returned state, so it is
omitted here. -/
def validate_item_contents (t : ItemType) (entries : List ZipEntry) :
    List String → Except FsvErr FsvState
  | [] => .ok .Valid
  | n :: rest =>
    let file_name := strTrim n
    if file_name == "" then validate_item_contents t entries rest
    else
      match byName entries file_name with
      | none => .ok (.ContentIncomplete (.MissingItemFile t))
      | some e =>
        match e.status with
        | .readable => validate_item_contents t entries rest
        | .ioError => .ok (.ContentIncomplete (.UnableToReadItem t))
        | .encrypted => .ok (.ContentIncomplete (.ItemPasswordProtected t))
        | .unsupported => .error .zip

/-- `fsv.rs`: the part of `validate_fsv` after the manifest parsed: the
format-version gate, the non-blank video/script requirements, then the three
per-category content checks in order video → script → subtitle, each
short-circuiting.  (Blank title and empty creators only log warnings in the
source.) -/
def validateParsed (entries : List ZipEntry) (m : FsvMetadata) : Except FsvErr FsvState :=
  if Version.lt LATEST_FSV_FORMAT_VERSION m.format_version
      || Version.lt m.format_version MINIMUM_FSV_FORMAT_VERSION then
    .ok (.MetadataInvalid (.UnsupportedFormatVersion m.format_version))
  else
    let video_present := m.video_formats.any (fun f => !(strTrim f.name == ""))
    if !video_present then .ok (.MetadataInvalid .MissingVideoFormat)
    else
      let script_present := m.script_variants.any (fun v => !(strTrim v.name == ""))
      if !script_present then .ok (.MetadataInvalid .MissingScriptVariant)
      else
        match validate_item_contents .Video entries (m.video_formats.map (fun f => f.name)) with
        | .ok .Valid =>
          match validate_item_contents .Script entries
              (m.script_variants.map (fun v => v.name)) with
          | .ok .Valid =>
            validate_item_contents .Subtitle entries
              (m.subtitle_tracks.map (fun s => s.name))
          | r => r
        | r => r

/-- `fsv.rs`: `validate_fsv`.  Opening faults are hard errors: a missing file
or a non-ZIP file fails to open, a missing "metadata.json" entry is
`MetadataNotFound`, an unreadable "metadata.json" entry is a `Zip` error.  A
manifest that fails to parse yields the soft state `InvalidFormatVersion`
(when the serde message is a `Version::parse` message — the source tests the
message for "Invalid version format" / "Invalid number in version") or
`MalformedJson`; everything later is `validateParsed`. -/
def validate_fsv (fs : FS) (path : FPath) : Except FsvErr FsvState :=
  match fs path with
  | none => .error .io
  | some (.jsonFile _) => .error .zip
  | some (.rawFile _) => .error .zip
  | some (.zipFile entries) =>
    match byName entries "metadata.json" with
    | none => .error .metadataNotFound
    | some me =>
      match me.status with
      | .readable =>
        match me.content with
        | .rawData _ => .ok (.MetadataInvalid (.MalformedJson "expected value"))
        | .jsonData j =>
          match deserFsvMetadata j with
          | .error .versionFormat => .ok (.MetadataInvalid .InvalidFormatVersion)
          | .error (.versionNumber _) => .ok (.MetadataInvalid .InvalidFormatVersion)
          | .error e => .ok (.MetadataInvalid (.MalformedJson e.message))
          | .ok m => validateParsed entries m
      | _ => .error .zip

/-! ## fsv.rs — open and rebuild -/

/-- `fsv.rs`: `open_fsv` — open the archive, read "metadata.json" (its absence
is the hard `MetadataFileNotFound`), parse the manifest (any parse failure is
a hard serde error here, unlike in validation). -/
def open_fsv (fs : FS) (path : FPath) : Except FsvErr (List ZipEntry × FsvMetadata) :=
  match fs path with
  | none => .error .io
  | some (.jsonFile _) => .error .zip
  | some (.rawFile _) => .error .zip
  | some (.zipFile entries) =>
    match byName entries "metadata.json" with
    | none => .error .metadataNotFound
    | some me =>
      match me.status with
      | .readable =>
        match me.content with
        | .rawData _ => .error .serdeJson
        | .jsonData j =>
          match deserFsvMetadata j with
          | .error _ => .error .serdeJson
          | .ok m => .ok (entries, m)
      | _ => .error .zip

/-- `fsv.rs`: `AddFile { name, path }`. -/
structure AddFileSpec where
  name : String
  path : FPath

/-- The copy loop of `rebuild_archive` (steps over the central directory,
skipping "metadata.json" and every removed name): the entries written so far,
plus the first access fault if one occurs (any `by_index`/copy fault
propagates as a `Zip` error and abandons the loop). -/
def copyEntries : List ZipEntry → List String → List ZipEntry × Option FsvErr
  | [], _ => ([], none)
  | e :: rest, remove_files =>
    if e.name == "metadata.json" || remove_files.contains e.name then
      copyEntries rest remove_files
    else
      match e.status with
      | .readable =>
        let r := copyEntries rest remove_files
        (⟨e.name, .readable, e.content⟩ :: r.1, r.2)
      | _ => ([], some .zip)

/-- The append loop of `rebuild_archive` over `add_files`: each added file is
opened on disk (a missing file is an I/O error) and written under its target
name. -/
def addEntries (fs : FS) : List AddFileSpec → List ZipEntry × Option FsvErr
  | [] => ([], none)
  | a :: rest =>
    match fs a.path with
    | none => ([], some .io)
    | some d =>
      let r := addEntries fs rest
      (⟨a.name, .readable, fileToEntryContent d⟩ :: r.1, r.2)

/-- The rewritten "metadata.json" entry `rebuild_archive` writes first. -/
def metadataEntry (m : FsvMetadata) : ZipEntry :=
  ⟨"metadata.json", .readable, .jsonData (serFsvMetadata m)⟩

/-- `fsv.rs`: `rebuild_archive` — create the sibling temporary file
`path.with_extension("tmp")`, write the updated "metadata.json", copy every
existing entry except "metadata.json" and the removed names, append the added
files, then atomically rename the temp file over the original path.  On any
failure before the rename the temp file is abandoned with whatever was
written so far and the error propagates.

Faithfulness note: the copy loop below reads from the central-directory
snapshot taken when the archive was opened.  This matches the program only
when `temp_path` differs from `archive_path`: for a container whose own
extension is "tmp" the `File::create` of the temp path truncates the original
while the copy loop of the program still reads entry data through the open
handle of that now-truncated file, so a real rebuild of a `*.tmp` container
with content entries fails mid-copy even when every entry was readable at
open time.  Theorems concluding a *successful* rebuild therefore carry the
hypothesis `archive_path.ext ≠ some "tmp"`; on the alias region only the
failure-side observables (a pre-rename error, the original clobbered) are
relied upon. -/
def rebuild_archive (fs : FS) (archive_path : FPath) (archive : List ZipEntry)
    (metadata : FsvMetadata) (add_files : List AddFileSpec)
    (remove_files : List String) : Except FsvErr Unit × FS :=
  let temp_path := archive_path.withExtension "tmp"
  let copied := copyEntries archive remove_files
  match copied.2 with
  | some e =>
    (.error e, setFile fs temp_path (.zipFile (metadataEntry metadata :: copied.1)))
  | none =>
    let added := addEntries fs add_files
    match added.2 with
    | some e =>
      (.error e,
        setFile fs temp_path (.zipFile (metadataEntry metadata :: copied.1 ++ added.1)))
    | none =>
      let newZip := FileData.zipFile (metadataEntry metadata :: copied.1 ++ added.1)
      (.ok (), renameFile (setFile fs temp_path newZip) temp_path archive_path)

/-- `fsv.rs`: `rebuild_fsv` — open, then `rebuild_archive` with empty add and
remove lists. -/
def rebuild_fsv (fs : FS) (path : FPath) : Except FsvErr Unit × FS :=
  match open_fsv fs path with
  | .error e => (.error e, fs)
  | .ok (entries, m) => rebuild_archive fs path entries m [] []

/-! ## fsv.rs — add and remove -/

/-- `fsv.rs`: `add_to_fsv`.  The item's file name and bytes are read and
hashed and the creator is resolved (its lookup outcome arrives as
`creatorRes`, the awaited result of `get_creator_info_from_key`) before the
container is opened.  Per item type: if an item with the same name already
exists the operation is a warning-only no-op; otherwise the duration is
computed (for video via the probe `videoDur`, for script by parsing a
funscript — note the source parses `std::fs::read_to_string(&path)`, the
container path, not the item path), the descriptor and optional creator
record are appended, and the archive is rebuilt with the one added file. -/
def add_to_fsv (fs : FS) (path : FPath) (item_type : ItemType) (item_path : FPath)
    (creatorRes : Except FsvErr (Option CreatorInfo)) (videoDur : FPath → Except FsvErr Nat)
    (hashHex : FileData → String) : Except FsvErr Unit × FS :=
  let filname := item_path.fileName
  match fs item_path with
  | none => (.error .io, fs)
  | some content =>
    let hash := get_file_hash hashHex content
    match creatorRes with
    | .error e => (.error e, fs)
    | .ok creator_info =>
      match open_fsv fs path with
      | .error e => (.error e, fs)
      | .ok (entries, metadata) =>
        match item_type with
        | .Video =>
          if metadata.video_formats.any (fun f => f.name == filname) then (.ok (), fs)
          else
            match videoDur item_path with
            | .error e => (.error e, fs)
            | .ok video_duration =>
              let metadata :=
                match creator_info with
                | some ci => metadata.add_video_creator ⟨filname, "", ci, []⟩
                | none => metadata
              let metadata := metadata.add_video_format ⟨filname, "", video_duration, hash, []⟩
              rebuild_archive fs path entries metadata [⟨filname, item_path⟩] []
        | .Script =>
          if metadata.script_variants.any (fun v => v.name == filname) then (.ok (), fs)
          else
            match fs path with
            | none => (.error .io, fs)
            | some container_bytes =>
              match fileAsJson container_bytes with
              | none => (.error .serdeJson, fs)
              | some fj =>
                match deserFunscript fj with
                | .error _ => (.error .serdeJson, fs)
                | .ok funscript =>
                  match get_funscript_duration funscript with
                  | .error _ => (.error .funscriptMissingActions, fs)
                  | .ok script_duration =>
                    let metadata :=
                      match creator_info with
                      | some ci => metadata.add_script_creator ⟨filname, "", ci, []⟩
                      | none => metadata
                    let metadata :=
                      metadata.add_script_variant ⟨filname, "", [], script_duration, 0, hash, []⟩
                    rebuild_archive fs path entries metadata [⟨filname, item_path⟩] []
        | .Subtitle =>
          if metadata.subtitle_tracks.any (fun t => t.name == filname) then (.ok (), fs)
          else
            let metadata :=
              match creator_info with
              | some ci => metadata.add_subtitle_creator ⟨filname, "", ci, []⟩
              | none => metadata
            let metadata := metadata.add_subtitle_track ⟨filname, "", "", hash, []⟩
            rebuild_archive fs path entries metadata [⟨filname, item_path⟩] []

/-- `fsv.rs`: `add_creator_to_fsv` — open the container, look the creator up
by key (`dbRes` is the awaited store result; an absent record is
`CreatorInfoNotFound`), append the work record to the matching list, and
rebuild with no file changes. -/
def add_creator_to_fsv (fs : FS) (fsv_path : FPath) (work_type : ItemType)
    (creator_key : String) (work_name : String) (source_url : String)
    (dbRes : Except FsvErr (Option CreatorInfo)) : Except FsvErr Unit × FS :=
  match open_fsv fs fsv_path with
  | .error e => (.error e, fs)
  | .ok (entries, metadata) =>
    match dbRes with
    | .error e => (.error e, fs)
    | .ok none => (.error (.creatorInfoNotFound creator_key), fs)
    | .ok (some creator_info) =>
      let work_info : WorkCreatorsMetadata := ⟨work_name, source_url, creator_info, []⟩
      let metadata :=
        match work_type with
        | .Video => metadata.add_video_creator work_info
        | .Script => metadata.add_script_creator work_info
        | .Subtitle => metadata.add_subtitle_creator work_info
      rebuild_archive fs fsv_path entries metadata [] []

/-- The removed-name set the Script arm of `remove_from_fsv` resolves: split
the entry id at the first '.'; when the extension (defaulted to "funscript")
is exactly "funscript", the exact id plus every per-axis companion
"stem.axis.funscript" over `AXES`; otherwise the exact id alone. -/
def scriptRemovalNames (entry_id : String) : List String :=
  let parts := strSplitDot entry_id
  let stem := parts.1
  let ext := parts.2.getD "funscript"
  if ext ≠ "funscript" then [entry_id]
  else entry_id :: AXES.map (fun axis => stem ++ "." ++ axis ++ "." ++ ext)

/-- `fsv.rs`: `remove_from_fsv`.  Creator entries are removed by work name
across all three creator lists; Video and Subtitle remove the matching
descriptor and its physical entry; Script resolves the removed-name set via
`scriptRemovalNames` and drops every matching variant and entry.  When no
record matched, the operation fails with `EntryNotFound` before any rebuild. -/
def remove_from_fsv (fs : FS) (path : FPath) (entry_type : EntryType)
    (entry_id : String) : Except FsvErr Unit × FS :=
  match open_fsv fs path with
  | .error e => (.error e, fs)
  | .ok (entries, metadata) =>
    match entry_type with
    | .Creator =>
      let found := (metadata.creators.videos.any (fun w => w.work_name == entry_id))
        || (metadata.creators.scripts.any (fun w => w.work_name == entry_id))
        || (metadata.creators.subtitles.any (fun w => w.work_name == entry_id))
      let metadata :=
        { metadata with creators :=
          { metadata.creators with
            videos := metadata.creators.videos.filter (fun w => !(w.work_name == entry_id)),
            scripts := metadata.creators.scripts.filter (fun w => !(w.work_name == entry_id)),
            subtitles :=
              metadata.creators.subtitles.filter (fun w => !(w.work_name == entry_id)) } }
      if !found then (.error (.entryNotFound entry_id), fs)
      else rebuild_archive fs path entries metadata [] []
    | .Video =>
      let found := metadata.video_formats.any (fun f => f.name == entry_id)
      let metadata :=
        { metadata with video_formats :=
            metadata.video_formats.filter (fun f => !(f.name == entry_id)) }
      if !found then (.error (.entryNotFound entry_id), fs)
      else rebuild_archive fs path entries metadata [] [entry_id]
    | .Script =>
      let scripts := scriptRemovalNames entry_id
      let found := metadata.script_variants.any (fun v => scripts.contains v.name)
      let metadata :=
        { metadata with script_variants :=
            metadata.script_variants.filter (fun v => !(scripts.contains v.name)) }
      if !found then (.error (.entryNotFound entry_id), fs)
      else rebuild_archive fs path entries metadata [] scripts
    | .Subtitle =>
      let found := metadata.subtitle_tracks.any (fun t => t.name == entry_id)
      let metadata :=
        { metadata with subtitle_tracks :=
            metadata.subtitle_tracks.filter (fun t => !(t.name == entry_id)) }
      if !found then (.error (.entryNotFound entry_id), fs)
      else rebuild_archive fs path entries metadata [] [entry_id]

/-! ## Basic lemmas about the filesystem model -/

theorem setFile_ne (fs : FS) (p : FPath) (d : FileData) (q : FPath) (h : q ≠ p) :
    setFile fs p d q = fs q := by
  unfold setFile
  exact if_neg h

theorem withExtension_tmp_ne (p : FPath) (h : p.ext ≠ some "tmp") :
    p.withExtension "tmp" ≠ p := by
  intro he
  apply h
  cases p
  simp only [FPath.withExtension, FPath.mk.injEq] at he
  simp [← he.2.2]

/-- Claim C1 (amended): whenever `rebuild_archive` fails before the final
rename, the original container file is unchanged at the original path —
provided the container path's extension is not itself "tmp" (for a container
named "x.tmp" the sibling temporary path `path.with_extension("tmp")`
coincides with the container path, and creating the temp file truncates the
original; see the counterexample). -/
theorem claim_C1_rebuild_failure_preserves_original
    (fs : FS) (archive_path : FPath) (archive : List ZipEntry) (metadata : FsvMetadata)
    (add_files : List AddFileSpec) (remove_files : List String) (e : FsvErr) (fs' : FS)
    (hext : archive_path.ext ≠ some "tmp")
    (hfail : rebuild_archive fs archive_path archive metadata add_files remove_files
      = (.error e, fs')) :
    fs' archive_path = fs archive_path := by
  have hne : archive_path ≠ archive_path.withExtension "tmp" :=
    fun h => withExtension_tmp_ne archive_path hext h.symm
  simp only [rebuild_archive] at hfail
  cases hc : (copyEntries archive remove_files).2 with
  | some ce =>
    rw [hc] at hfail
    simp only [Prod.mk.injEq] at hfail
    rw [← hfail.2]
    exact setFile_ne _ _ _ _ hne
  | none =>
    rw [hc] at hfail
    cases ha : (addEntries fs add_files).2 with
    | some ae =>
      rw [ha] at hfail
      simp only [Prod.mk.injEq] at hfail
      rw [← hfail.2]
      exact setFile_ne _ _ _ _ hne
    | none =>
      rw [ha] at hfail
      simp only [Prod.mk.injEq, reduceCtorEq, false_and] at hfail

def c1cx_meta : FsvMetadata := FsvMetadata.new ⟨1, 0, 0⟩

def c1cx_entries : List ZipEntry :=
  [metadataEntry c1cx_meta, ⟨"a.mp4", .ioError, .rawData "vid"⟩]

def c1cx_path : FPath := ⟨"d", "container", some "tmp"⟩

def c1cx_fs : FS :=
  fun q => if q = c1cx_path then some (.zipFile c1cx_entries) else none

/-- Claim C1, counterexample to the unrestricted statement: for the container
"container.tmp", `path.with_extension("tmp")` is the container path itself, so
the standalone rebuild creates its "temporary" file over the original; the
copy step then fails on an unreadable entry before the rename, yet the
original container has been replaced by the partial archive (its entry list
shrank from ["metadata.json", "a.mp4"] to ["metadata.json"]). -/
theorem claim_C1_counterexample :
    (rebuild_fsv c1cx_fs c1cx_path).1 = .error .zip ∧
      zipEntryNames ((rebuild_fsv c1cx_fs c1cx_path).2 c1cx_path)
        ≠ zipEntryNames (c1cx_fs c1cx_path) := by
  constructor
  · rfl
  · decide

def c1w_meta : FsvMetadata := FsvMetadata.new ⟨1, 0, 0⟩

def c1w_entries : List ZipEntry :=
  [metadataEntry c1w_meta, ⟨"a.mp4", .ioError, .rawData "vid"⟩]

def c1w_path : FPath := ⟨"d", "container", some "fsv"⟩

def c1w_fs : FS :=
  fun q => if q = c1w_path then some (.zipFile c1w_entries) else none

/-- Claim C1, witness: a failing rebuild of the container "container.fsv"
leaves the original file unchanged at its path. -/
theorem claim_C1_witness :
    ((rebuild_archive c1w_fs c1w_path c1w_entries c1w_meta [] []).2) c1w_path
      = c1w_fs c1w_path := by
  apply claim_C1_rebuild_failure_preserves_original c1w_fs c1w_path c1w_entries c1w_meta
    [] [] .zip _ (by decide)
  have h1 : rebuild_archive c1w_fs c1w_path c1w_entries c1w_meta [] []
      = ((rebuild_archive c1w_fs c1w_path c1w_entries c1w_meta [] []).1,
         (rebuild_archive c1w_fs c1w_path c1w_entries c1w_meta [] []).2) := rfl
  have h2 : (rebuild_archive c1w_fs c1w_path c1w_entries c1w_meta [] []).1
      = .error .zip := rfl
  rw [h1, h2]

theorem copyEntries_all_readable (l : List ZipEntry) (rm : List String)
    (h : ∀ e ∈ l, e.status = .readable) :
    copyEntries l rm
      = (l.filter (fun e => !(e.name == "metadata.json" || rm.contains e.name)), none) := by
  induction l with
  | nil => rfl
  | cons e rest ih =>
    have he := h e (List.mem_cons_self e rest)
    have hr : ∀ x ∈ rest, x.status = EntryStatus.readable :=
      fun x hx => h x (List.mem_cons_of_mem e hx)
    obtain ⟨n, st, c⟩ := e
    simp only at he
    subst he
    by_cases hskip : (n == "metadata.json" || rm.contains n) = true
    · simp only [copyEntries, hskip, if_true, ih hr, List.filter_cons]
      simp [hskip]
    · simp only [copyEntries, Bool.not_eq_true] at hskip ⊢
      simp only [hskip, Bool.false_eq_true, if_false, ih hr, List.filter_cons]
      simp [hskip]

/-- Claim C3 (amended): rebuilding with empty add and remove lists succeeds on
a container whose entries are all readable and whose path's own extension is
not "tmp" (on a `*.tmp` container the temporary file aliases the original and
the real rebuild fails mid-copy; see claim C1), and the output archive holds
the rewritten "metadata.json" followed by every existing central-directory
entry except "metadata.json" — entries *not* referenced by any descriptor are
preserved, not stripped (the copy loop of `rebuild_archive` iterates the
central directory and never consults the manifest; see the counterexample,
where an unreferenced "debug.txt" survives the rebuild). -/
theorem claim_C3_rebuild_keeps_central_directory (fs : FS) (path : FPath)
    (entries : List ZipEntry) (m : FsvMetadata)
    (_hext : path.ext ≠ some "tmp")
    (hopen : open_fsv fs path = .ok (entries, m))
    (hread : ∀ e ∈ entries, e.status = .readable) :
    (rebuild_fsv fs path).1 = .ok () ∧
      (rebuild_fsv fs path).2 path
        = some (.zipFile (metadataEntry m
            :: entries.filter (fun e => !(e.name == "metadata.json")))) := by
  have hcopy := copyEntries_all_readable entries [] hread
  have hfilter : entries.filter
        (fun e => !(e.name == "metadata.json" || ([] : List String).contains e.name))
      = entries.filter (fun e => !(e.name == "metadata.json")) := by
    apply List.filter_congr
    intro e _
    simp [List.contains]
  simp only [rebuild_fsv, hopen, rebuild_archive, hcopy, hfilter, addEntries,
    List.append_nil]
  refine ⟨trivial, ?_⟩
  simp [renameFile, setFile]

def c3_meta : FsvMetadata :=
  { FsvMetadata.new ⟨1, 0, 0⟩ with
    video_formats := [⟨"a.mp4", "", 0, "", []⟩],
    script_variants := [⟨"s.funscript", "", [], 0, 0, "", []⟩] }

def c3_entries : List ZipEntry :=
  [metadataEntry c3_meta,
   ⟨"a.mp4", .readable, .rawData "video-bytes"⟩,
   ⟨"s.funscript", .readable, .rawData "script-bytes"⟩,
   ⟨"debug.txt", .readable, .rawData "orphan"⟩]

def c3_path : FPath := ⟨"d", "container", some "fsv"⟩

def c3_fs : FS :=
  fun q => if q = c3_path then some (.zipFile c3_entries) else none

/-- Claim C3, counterexample: the container's manifest references only
"a.mp4" and "s.funscript", yet after a standalone rebuild the unreferenced
entry "debug.txt" is still present in the output archive — the claim says it
would be stripped. -/
theorem claim_C3_counterexample :
    (rebuild_fsv c3_fs c3_path).1 = .ok () ∧
      (zipEntryNames ((rebuild_fsv c3_fs c3_path).2 c3_path)).contains "debug.txt"
        = true := by
  constructor
  · rfl
  · decide

/-- Claim C3, witness for the amended statement, at the same container. -/
theorem claim_C3_witness :
    (rebuild_fsv c3_fs c3_path).1 = .ok () ∧
      (rebuild_fsv c3_fs c3_path).2 c3_path
        = some (.zipFile (metadataEntry c3_meta
            :: c3_entries.filter (fun e => !(e.name == "metadata.json")))) :=
  claim_C3_rebuild_keeps_central_directory c3_fs c3_path c3_entries c3_meta
    (by decide) (by rfl) (by decide)

def c2_meta : FsvMetadata :=
  { FsvMetadata.new ⟨1, 0, 0⟩ with
    video_formats := [⟨"a.mp4", "", 0, "", []⟩, ⟨"a.mp4", "", 0, "", []⟩],
    script_variants := [⟨"s.funscript", "", [], 0, 0, "", []⟩] }

def c2_entries : List ZipEntry :=
  [metadataEntry c2_meta,
   ⟨"a.mp4", .readable, .rawData "video-bytes"⟩,
   ⟨"s.funscript", .readable, .rawData "script-bytes"⟩]

def c2_path : FPath := ⟨"d", "container", some "fsv"⟩

def c2_fs : FS :=
  fun q => if q = c2_path then some (.zipFile c2_entries) else none

/-- Claim C2, evaluation at the failing input: a manifest listing two video
formats both named "a.mp4" (the entry being present and readable) validates to
`Valid`, not to `ContentIncomplete (DuplicateItemEntry Video)`.  In the source
the duplicate check of `validate_item_contents` only logs a warning
(`if !seen.insert(file_name) { warn!(...) }`) and never constructs the
`ContentIncompleteReason::DuplicateItemEntry` variant — that variant is
declared but dead. -/
theorem claim_C2_duplicate_only_warns :
    validate_fsv c2_fs c2_path = .ok .Valid ∧
      validate_fsv c2_fs c2_path
        ≠ .ok (.ContentIncomplete (.DuplicateItemEntry .Video)) := by
  have h0 : validate_fsv c2_fs c2_path = .ok .Valid := rfl
  refine ⟨h0, ?_⟩
  rw [h0]
  intro h
  injection h with h2
  exact absurd h2 (by decide)

def c4_meta : FsvMetadata :=
  { FsvMetadata.new ⟨1, 0, 0⟩ with
    video_formats := [⟨"a.mp4", "", 0, "", []⟩],
    script_variants := [⟨"other.funscript", "", [], 0, 0, "", []⟩] }

def c4_entries : List ZipEntry :=
  [metadataEntry c4_meta,
   ⟨"a.mp4", .readable, .rawData "video-bytes"⟩,
   ⟨"other.funscript", .readable, .rawData "script-bytes"⟩]

def c4_path : FPath := ⟨"d", "container", some "fsv"⟩

def c4_item : FPath := ⟨"d", "scene", some "funscript"⟩

/-- A well-formed funscript document whose maximum action timestamp is 1234. -/
def c4_fj : Json :=
  .obj [("actions", .arr [.obj [("at", .num 500), ("pos", .num 50)],
                          .obj [("at", .num 1234), ("pos", .num 10)]]),
        ("inverted", .bool false), ("range", .num 90), ("version", .str "1.0")]

def c4_fs : FS :=
  fun q =>
    if q = c4_path then some (.zipFile c4_entries)
    else if q = c4_item then some (.jsonFile c4_fj)
    else none

def c4_funscript : Funscript := ⟨[⟨500, 50⟩, ⟨1234, 10⟩], false, none, 90, "1.0"⟩

def c4_vd : FPath → Except FsvErr Nat := fun _ => .error .getDuration

def c4_hh : FileData → String := fun _ => "0123abcd"

/-- Claim C4, evaluation at the failing input: "scene.funscript" is not yet a
script variant of the container, and the file at the item path is a valid
funscript whose maximum action timestamp is 1234 — yet `add_to_fsv` fails
with a serde error instead of adding a variant with duration 1234, because
the source parses `std::fs::read_to_string(&path)` (the container, whose ZIP
bytes are not funscript JSON) instead of `&item_path`.  (`create_inner`, by
contrast, parses the script file itself.) -/
theorem claim_C4_script_add_reads_container_path :
    c4_fs c4_item = some (.jsonFile c4_fj) ∧
      deserFunscript c4_fj = .ok c4_funscript ∧
      get_funscript_duration c4_funscript = .ok 1234 ∧
      add_to_fsv c4_fs c4_path .Script c4_item (.ok none) c4_vd c4_hh
        = (.error .serdeJson, c4_fs) := by
  exact ⟨rfl, rfl, rfl, rfl⟩

theorem validate_item_contents_ok (t : ItemType) (entries : List ZipEntry)
    (h : ∀ e ∈ entries, e.status ≠ .unsupported) (names : List String) :
    ∃ s, validate_item_contents t entries names = .ok s := by
  induction names with
  | nil => exact ⟨.Valid, rfl⟩
  | cons n rest ih =>
    unfold validate_item_contents
    by_cases hb : (strTrim n == "") = true
    · simpa [hb] using ih
    · simp only [hb, Bool.false_eq_true, if_false]
      cases hf : byName entries (strTrim n) with
      | none => exact ⟨_, rfl⟩
      | some e =>
        have hmem : e ∈ entries := List.mem_of_find?_eq_some hf
        dsimp only
        cases hst : e.status with
        | readable => simpa [hst] using ih
        | ioError => exact ⟨_, rfl⟩
        | encrypted => exact ⟨_, rfl⟩
        | unsupported => exact absurd hst (h e hmem)

theorem validateParsed_ok (entries : List ZipEntry) (m : FsvMetadata)
    (h : ∀ e ∈ entries, e.status ≠ .unsupported) :
    ∃ s, validateParsed entries m = .ok s := by
  unfold validateParsed
  by_cases h1 : (Version.lt LATEST_FSV_FORMAT_VERSION m.format_version
      || Version.lt m.format_version MINIMUM_FSV_FORMAT_VERSION) = true
  · rw [if_pos h1]
    exact ⟨_, rfl⟩
  · rw [if_neg h1]
    by_cases h2 : (m.video_formats.any (fun f => !(strTrim f.name == ""))) = true
    · simp only [h2, Bool.not_true, Bool.false_eq_true, if_false]
      by_cases h3 : (m.script_variants.any (fun v => !(strTrim v.name == ""))) = true
      · simp only [h3, Bool.not_true, Bool.false_eq_true, if_false]
        obtain ⟨s1, hs1⟩ := validate_item_contents_ok .Video entries h
          (m.video_formats.map (fun f => f.name))
        rw [hs1]
        cases s1 with
        | Valid =>
          obtain ⟨s2, hs2⟩ := validate_item_contents_ok .Script entries h
            (m.script_variants.map (fun v => v.name))
          rw [hs2]
          cases s2 with
          | Valid =>
            exact validate_item_contents_ok .Subtitle entries h
              (m.subtitle_tracks.map (fun s => s.name))
          | ContentIncomplete r => exact ⟨_, rfl⟩
          | MetadataInvalid r => exact ⟨_, rfl⟩
        | ContentIncomplete r => exact ⟨_, rfl⟩
        | MetadataInvalid r => exact ⟨_, rfl⟩
      · simp only [h3, Bool.not_false, if_true]
        exact ⟨_, rfl⟩
    · simp only [h2, Bool.not_false, if_true]
      exact ⟨_, rfl⟩

/-- Claim C5: `validate_fsv` signals a hard error only when the container
cannot be opened as an FSV at all — in particular an archive with no
"metadata.json" entry yields the `MetadataNotFound` error, never a soft
`FsvState` — and for every container that opens with a readable JSON
manifest entry, every invalid or incomplete condition comes back as an
`Ok(FsvState)` value, never as an error (the only post-open error paths are
I/O/decode faults on the archive itself: an unreadable manifest entry, or a
content entry whose access fault is outside the Io / missing / encrypted
classification). -/
theorem claim_C5_validation_errors_only_on_open_failure :
    (∀ fs path entries, fs path = some (.zipFile entries) →
      byName entries "metadata.json" = none →
      validate_fsv fs path = .error .metadataNotFound) ∧
    (∀ fs path entries j, fs path = some (.zipFile entries) →
      byName entries "metadata.json" = some ⟨"metadata.json", .readable, .jsonData j⟩ →
      (∀ e ∈ entries, e.status ≠ .unsupported) →
      ∃ s, validate_fsv fs path = .ok s) := by
  constructor
  · intro fs path entries hfs hmeta
    simp only [validate_fsv, hfs, hmeta]
  · intro fs path entries j hfs hmeta hns
    simp only [validate_fsv, hfs, hmeta]
    cases hd : deserFsvMetadata j with
    | error e =>
      cases e <;> simp [hd]
    | ok m =>
      simp only [hd]
      exact validateParsed_ok entries m hns

def c5a_entries : List ZipEntry := [⟨"x.bin", .readable, .rawData "d"⟩]

def c5a_path : FPath := ⟨"d", "notfsv", some "zip"⟩

def c5a_fs : FS :=
  fun q => if q = c5a_path then some (.zipFile c5a_entries) else none

def c5b_entries : List ZipEntry :=
  [⟨"metadata.json", .readable, .jsonData (.obj [])⟩]

def c5b_path : FPath := ⟨"d", "container", some "fsv"⟩

def c5b_fs : FS :=
  fun q => if q = c5b_path then some (.zipFile c5b_entries) else none

/-- Claim C5, witness: an archive without "metadata.json" hard-errors with
`MetadataNotFound`; an archive whose manifest is readable JSON (here one that
fails schema validation) gets a soft `Ok` verdict. -/
theorem claim_C5_witness :
    validate_fsv c5a_fs c5a_path = .error .metadataNotFound ∧
      ∃ s, validate_fsv c5b_fs c5b_path = .ok s := by
  constructor
  · exact claim_C5_validation_errors_only_on_open_failure.1 c5a_fs c5a_path
      c5a_entries rfl rfl
  · exact claim_C5_validation_errors_only_on_open_failure.2 c5b_fs c5b_path
      c5b_entries (.obj []) rfl rfl (by decide)

theorem validate_item_contents_shapes (t : ItemType) (entries : List ZipEntry)
    (names : List String) (s : FsvState)
    (h : validate_item_contents t entries names = .ok s) :
    s = .Valid ∨ ∃ r, s = .ContentIncomplete r := by
  induction names with
  | nil =>
    injection h with h2
    exact Or.inl h2.symm
  | cons n rest ih =>
    unfold validate_item_contents at h
    by_cases hb : (strTrim n == "") = true
    · rw [if_pos hb] at h
      exact ih h
    · rw [if_neg hb] at h
      cases hby : byName entries (strTrim n) with
      | none =>
        rw [hby] at h
        injection h with h2
        exact Or.inr ⟨_, h2.symm⟩
      | some e =>
        rw [hby] at h
        dsimp only at h
        cases hst : e.status with
        | readable =>
          rw [hst] at h
          exact ih h
        | ioError =>
          rw [hst] at h
          injection h with h2
          exact Or.inr ⟨_, h2.symm⟩
        | encrypted =>
          rw [hst] at h
          injection h with h2
          exact Or.inr ⟨_, h2.symm⟩
        | unsupported =>
          rw [hst] at h
          exact absurd h (by simp)

theorem validateParsed_not_unsupported (entries : List ZipEntry) (m : FsvMetadata)
    (v : Version)
    (hc : (Version.lt LATEST_FSV_FORMAT_VERSION m.format_version
      || Version.lt m.format_version MINIMUM_FSV_FORMAT_VERSION) = false) :
    validateParsed entries m ≠ .ok (.MetadataInvalid (.UnsupportedFormatVersion v)) := by
  unfold validateParsed
  rw [if_neg (by simp [hc])]
  intro h
  by_cases h2 : (m.video_formats.any (fun f => !(strTrim f.name == ""))) = true
  · simp only [h2, Bool.not_true, Bool.false_eq_true, if_false] at h
    by_cases h3 : (m.script_variants.any (fun v => !(strTrim v.name == ""))) = true
    · simp only [h3, Bool.not_true, Bool.false_eq_true, if_false] at h
      cases hs1 : validate_item_contents .Video entries
          (m.video_formats.map (fun f => f.name)) with
      | error e1 =>
        rw [hs1] at h
        exact absurd h (by simp)
      | ok s1 =>
        rw [hs1] at h
        rcases validate_item_contents_shapes _ _ _ _ hs1 with h1 | ⟨r1, h1⟩ <;> subst h1
        · cases hs2 : validate_item_contents .Script entries
              (m.script_variants.map (fun x => x.name)) with
          | error e2 =>
            rw [hs2] at h
            exact absurd h (by simp)
          | ok s2 =>
            rw [hs2] at h
            rcases validate_item_contents_shapes _ _ _ _ hs2 with h2b | ⟨r2, h2b⟩ <;> subst h2b
            · rcases validate_item_contents_shapes _ _ _ _ h with h3b | ⟨r3, h3b⟩ <;>
                simp at h3b
            · simp at h
        · simp at h
    · simp only [h3, Bool.not_false, if_true] at h
      injection h with hh
      exact absurd hh (by simp)
  · simp only [h2, Bool.not_false, if_true] at h
    injection h with hh
    exact absurd hh (by simp)

theorem version_outside_iff (v : Version) :
    (Version.lt LATEST_FSV_FORMAT_VERSION v || Version.lt v MINIMUM_FSV_FORMAT_VERSION) = true
      ↔ ¬(Version.le MINIMUM_FSV_FORMAT_VERSION v ∧ Version.le v LATEST_FSV_FORMAT_VERSION) := by
  rw [Bool.or_eq_true, Version.lt_iff_not_le, Version.lt_iff_not_le]
  tauto

/-- Claim C6: for every manifest that parses, `validate_fsv` returns
`MetadataInvalid (UnsupportedFormatVersion v)` exactly when the manifest's
`format_version` `v` lies outside the closed interval
[`MINIMUM_FSV_FORMAT_VERSION`, `LATEST_FSV_FORMAT_VERSION`]. -/
theorem claim_C6_unsupported_version_gate (fs : FS) (path : FPath) (entries : List ZipEntry) (j : Json)
    (m : FsvMetadata)
    (hfs : fs path = some (.zipFile entries))
    (hmeta : byName entries "metadata.json" = some ⟨"metadata.json", .readable, .jsonData j⟩)
    (hd : deserFsvMetadata j = .ok m) :
    validate_fsv fs path
        = .ok (.MetadataInvalid (.UnsupportedFormatVersion m.format_version))
      ↔ ¬(Version.le MINIMUM_FSV_FORMAT_VERSION m.format_version ∧
          Version.le m.format_version LATEST_FSV_FORMAT_VERSION) := by
  have hval : validate_fsv fs path = validateParsed entries m := by
    simp only [validate_fsv, hfs, hmeta, hd]
  rw [hval]
  by_cases hc : (Version.lt LATEST_FSV_FORMAT_VERSION m.format_version
      || Version.lt m.format_version MINIMUM_FSV_FORMAT_VERSION) = true
  · have hres : validateParsed entries m
        = .ok (.MetadataInvalid (.UnsupportedFormatVersion m.format_version)) := by
      unfold validateParsed
      rw [if_pos hc]
    exact iff_of_true hres ((version_outside_iff m.format_version).mp hc)
  · have hcf : (Version.lt LATEST_FSV_FORMAT_VERSION m.format_version
        || Version.lt m.format_version MINIMUM_FSV_FORMAT_VERSION) = false :=
      Bool.not_eq_true _ |>.mp hc
    refine iff_of_false (validateParsed_not_unsupported entries m _ hcf) ?_
    intro hn
    exact hc ((version_outside_iff m.format_version).mpr hn)

def c6_meta : FsvMetadata := FsvMetadata.new ⟨2, 0, 0⟩

def c6_entries : List ZipEntry := [metadataEntry c6_meta]

def c6_path : FPath := ⟨"d", "container", some "fsv"⟩

def c6_fs : FS :=
  fun q => if q = c6_path then some (.zipFile c6_entries) else none

/-- Claim C6, witness: a manifest with format_version "2.0.0" (above LATEST
"1.0.0") validates to `MetadataInvalid (UnsupportedFormatVersion 2.0.0)`. -/
theorem claim_C6_witness :
    validate_fsv c6_fs c6_path
      = .ok (.MetadataInvalid (.UnsupportedFormatVersion ⟨2, 0, 0⟩)) :=
  (claim_C6_unsupported_version_gate c6_fs c6_path c6_entries
    (serFsvMetadata c6_meta) c6_meta rfl rfl rfl).mpr (by decide)

/-- The manifest after the Script arm of `remove_from_fsv` dropped every
variant whose name is in the removed-name set. -/
def removeScriptsMeta (m : FsvMetadata) (scripts : List String) : FsvMetadata :=
  { m with script_variants :=
      m.script_variants.filter (fun v => !(scripts.contains v.name)) }

/-- Claim C7: removing a Script entry whose extension (after splitting at the
first '.') is the bare "funscript" resolves the removed-name set to the exact
id plus every per-axis companion "stem.axis.funscript" over the fixed `AXES`
list; when a variant matches — and the container path's own extension is not
"tmp", so the temporary file does not alias the original and the rebuild can
complete (see claim C1) — every matching descriptor is dropped and every
name in the set is excluded from the rebuilt archive in one rebuild; when no
variant matches, the call fails with `EntryNotFound` and the filesystem is
untouched. -/
theorem claim_C7_script_removal (fs : FS) (path : FPath) (entries : List ZipEntry)
    (m : FsvMetadata) (entry_id stem : String)
    (hopen : open_fsv fs path = .ok (entries, m))
    (hsplit : strSplitDot entry_id = (stem, some "funscript")) :
    scriptRemovalNames entry_id
        = entry_id :: AXES.map (fun axis => stem ++ "." ++ axis ++ "." ++ "funscript") ∧
      (path.ext ≠ some "tmp" →
        (m.script_variants.any (fun v => (scriptRemovalNames entry_id).contains v.name))
          = true →
        (∀ e ∈ entries, e.status = .readable) →
        (remove_from_fsv fs path .Script entry_id).1 = .ok () ∧
          (remove_from_fsv fs path .Script entry_id).2 path
            = some (.zipFile (metadataEntry (removeScriptsMeta m (scriptRemovalNames entry_id))
                :: entries.filter (fun e => !(e.name == "metadata.json"
                    || (scriptRemovalNames entry_id).contains e.name))))) ∧
      ((m.script_variants.any (fun v => (scriptRemovalNames entry_id).contains v.name))
          = false →
        remove_from_fsv fs path .Script entry_id
          = (.error (.entryNotFound entry_id), fs)) := by
  refine ⟨?_, ?_, ?_⟩
  · simp [scriptRemovalNames, hsplit]
  · intro _hext hfound hread
    have hcopy := copyEntries_all_readable entries (scriptRemovalNames entry_id) hread
    simp only [remove_from_fsv, hopen, hfound, Bool.not_true, Bool.false_eq_true,
      if_false, rebuild_archive, hcopy, addEntries, List.append_nil, removeScriptsMeta]
    refine ⟨trivial, ?_⟩
    simp [renameFile, setFile]
  · intro hfound
    simp only [remove_from_fsv, hopen, hfound, Bool.not_false, if_true]

def c7_meta : FsvMetadata :=
  { FsvMetadata.new ⟨1, 0, 0⟩ with
    video_formats := [⟨"a.mp4", "", 0, "", []⟩],
    script_variants := [⟨"scene.funscript", "", [], 0, 0, "", []⟩,
                        ⟨"scene.roll.funscript", "", [], 0, 0, "", []⟩] }

def c7_entries : List ZipEntry :=
  [metadataEntry c7_meta,
   ⟨"a.mp4", .readable, .rawData "video-bytes"⟩,
   ⟨"scene.funscript", .readable, .rawData "script-bytes"⟩,
   ⟨"scene.roll.funscript", .readable, .rawData "roll-bytes"⟩]

def c7_path : FPath := ⟨"d", "container", some "fsv"⟩

def c7_fs : FS :=
  fun q => if q = c7_path then some (.zipFile c7_entries) else none

/-- Claim C7, witness: `remove(Script, "scene.funscript")` on a manifest also
containing "scene.roll.funscript" succeeds in one rebuild, dropping both
descriptors and both physical entries. -/
theorem claim_C7_witness :
    (remove_from_fsv c7_fs c7_path .Script "scene.funscript").1 = .ok () ∧
      (remove_from_fsv c7_fs c7_path .Script "scene.funscript").2 c7_path
        = some (.zipFile
            (metadataEntry
              (removeScriptsMeta c7_meta (scriptRemovalNames "scene.funscript"))
            :: c7_entries.filter (fun e => !(e.name == "metadata.json"
                || (scriptRemovalNames "scene.funscript").contains e.name)))) :=
  (claim_C7_script_removal c7_fs c7_path c7_entries c7_meta "scene.funscript" "scene"
    (by rfl) (by rfl)).2.1 (by decide) (by decide) (by decide)

/-- Whether the manifest already lists an item of the given type with the
given target name — the duplicate check `add_to_fsv` performs per branch. -/
def hasItemNamed (m : FsvMetadata) (t : ItemType) (n : String) : Bool :=
  match t with
  | .Video => m.video_formats.any (fun f => f.name == n)
  | .Script => m.script_variants.any (fun v => v.name == n)
  | .Subtitle => m.subtitle_tracks.any (fun tr => tr.name == n)

/-- Claim C8: when the target file name already names an item of the same
type in the manifest, `add_to_fsv` returns success and the filesystem — in
particular the container file — is unchanged: the duplicate check
short-circuits before any rebuild. -/
theorem claim_C8_add_existing_is_noop (fs : FS) (path : FPath) (item_path : FPath) (t : ItemType)
    (ci : Option CreatorInfo) (videoDur : FPath → Except FsvErr Nat)
    (hashHex : FileData → String) (entries : List ZipEntry) (m : FsvMetadata)
    (d : FileData)
    (hitem : fs item_path = some d)
    (hopen : open_fsv fs path = .ok (entries, m))
    (hdup : hasItemNamed m t item_path.fileName = true) :
    add_to_fsv fs path t item_path (.ok ci) videoDur hashHex = (.ok (), fs) := by
  cases t with
  | Video =>
    simp only [hasItemNamed] at hdup
    simp only [add_to_fsv, hitem, hopen, hdup, if_true]
  | Script =>
    simp only [hasItemNamed] at hdup
    simp only [add_to_fsv, hitem, hopen, hdup, if_true]
  | Subtitle =>
    simp only [hasItemNamed] at hdup
    simp only [add_to_fsv, hitem, hopen, hdup, if_true]

def c8_meta : FsvMetadata :=
  { FsvMetadata.new ⟨1, 0, 0⟩ with
    video_formats := [⟨"a.mp4", "", 0, "", []⟩],
    script_variants := [⟨"s.funscript", "", [], 0, 0, "", []⟩] }

def c8_entries : List ZipEntry :=
  [metadataEntry c8_meta,
   ⟨"a.mp4", .readable, .rawData "video-bytes"⟩,
   ⟨"s.funscript", .readable, .rawData "script-bytes"⟩]

def c8_path : FPath := ⟨"d", "container", some "fsv"⟩

def c8_item : FPath := ⟨"d", "a", some "mp4"⟩

def c8_fs : FS :=
  fun q =>
    if q = c8_path then some (.zipFile c8_entries)
    else if q = c8_item then some (.rawFile "new-video-bytes")
    else none

def c8_vd : FPath → Except FsvErr Nat := fun _ => .ok 999

def c8_hh : FileData → String := fun _ => "0123abcd"

/-- Claim C8, witness: adding "a.mp4" to a container that already lists a
video format of that name succeeds without touching the filesystem. -/
theorem claim_C8_witness :
    add_to_fsv c8_fs c8_path .Video c8_item (.ok none) c8_vd c8_hh
      = (.ok (), c8_fs) :=
  claim_C8_add_existing_is_noop c8_fs c8_path c8_item .Video none c8_vd c8_hh
    c8_entries c8_meta (.rawFile "new-video-bytes") rfl rfl (by decide)

theorem getField_append_of_known (pre rest : List (String × Json)) (known : List String)
    (k : String) (hpre : ∀ p ∈ pre, known.contains p.1 = true)
    (hk : known.contains k = false) :
    getField (pre ++ rest) k = getField rest k := by
  induction pre with
  | nil => rfl
  | cons p pre ih =>
    have hp := hpre p (List.mem_cons_self p pre)
    have hne : (p.1 == k) = false := by
      by_cases he : (p.1 == k) = true
      · have : p.1 = k := by simpa using he
        rw [this] at hp
        rw [hp] at hk
        exact absurd hk (by simp)
      · simpa using he
    simp only [List.cons_append, getField, List.find?, hne]
    exact ih (fun q hq => hpre q (List.mem_cons_of_mem p hq))

theorem getField_extraOf (fields : List (String × Json)) (known : List String)
    (k : String) (hk : known.contains k = false) :
    getField (extraOf fields known) k = getField fields k := by
  induction fields with
  | nil => rfl
  | cons p rest ih =>
    by_cases he : (p.1 == k) = true
    · have hpk : p.1 = k := by simpa using he
      have hcp : known.contains p.1 = false := by rw [hpk]; exact hk
      simp only [extraOf, List.filter_cons, hcp, Bool.not_false, if_true, getField,
        List.find?, he]
    · have he2 : (p.1 == k) = false := by simpa using he
      by_cases hc : known.contains p.1 = true
      · simp only [extraOf, List.filter_cons, hc, Bool.not_true, Bool.false_eq_true,
          if_false, getField, List.find?, he2]
        exact ih
      · have hc2 : known.contains p.1 = false := by simpa using hc
        simp only [extraOf, List.filter_cons, hc2, Bool.not_false, if_true, getField,
          List.find?, he2]
        exact ih

theorem deserCreatorInfo_extra (fields : List (String × Json)) (x : CreatorInfo)
    (h : deserCreatorInfo (.obj fields) = .ok x) :
    x.extra = extraOf fields knownCreatorInfoKeys := by
  simp only [deserCreatorInfo] at h
  repeat' split at h
  all_goals first
    | (injection h with h2; rw [← h2])
    | exact Except.noConfusion h

theorem serCreatorInfo_preserves_unknown (fields : List (String × Json)) (x : CreatorInfo)
    (k : String) (h : deserCreatorInfo (.obj fields) = .ok x)
    (hk : knownCreatorInfoKeys.contains k = false) :
    getField (serCreatorInfoFields x) k = getField fields k := by
  unfold serCreatorInfoFields
  rw [getField_append_of_known _ _ knownCreatorInfoKeys k
      (by intro p hp
          simp only [List.mem_cons, List.not_mem_nil, or_false] at hp
          rcases hp with rfl | rfl <;> rfl) hk]
  rw [deserCreatorInfo_extra fields x h]
  exact getField_extraOf fields knownCreatorInfoKeys k hk

theorem deserWorkCreators_extra (fields : List (String × Json)) (x : WorkCreatorsMetadata)
    (h : deserWorkCreators (.obj fields) = .ok x) :
    x.extra = extraOf fields knownWorkCreatorsKeys := by
  simp only [deserWorkCreators] at h
  repeat' split at h
  all_goals first
    | (injection h with h2; rw [← h2])
    | exact Except.noConfusion h

theorem serWorkCreators_preserves_unknown (fields : List (String × Json)) (x : WorkCreatorsMetadata)
    (k : String) (h : deserWorkCreators (.obj fields) = .ok x)
    (hk : knownWorkCreatorsKeys.contains k = false) :
    getField (serWorkCreatorsFields x) k = getField fields k := by
  unfold serWorkCreatorsFields
  rw [getField_append_of_known _ _ knownWorkCreatorsKeys k
      (by intro p hp
          simp only [List.mem_cons, List.not_mem_nil, or_false] at hp
          rcases hp with rfl | rfl | rfl <;> rfl) hk]
  rw [deserWorkCreators_extra fields x h]
  exact getField_extraOf fields knownWorkCreatorsKeys k hk

theorem deserCreatorsMetadata_extra (fields : List (String × Json)) (x : CreatorsMetadata)
    (h : deserCreatorsMetadata (.obj fields) = .ok x) :
    x.extra = extraOf fields knownCreatorsMetadataKeys := by
  simp only [deserCreatorsMetadata] at h
  repeat' split at h
  all_goals first
    | (injection h with h2; rw [← h2])
    | exact Except.noConfusion h

theorem serCreatorsMetadata_preserves_unknown (fields : List (String × Json)) (x : CreatorsMetadata)
    (k : String) (h : deserCreatorsMetadata (.obj fields) = .ok x)
    (hk : knownCreatorsMetadataKeys.contains k = false) :
    getField (serCreatorsMetadataFields x) k = getField fields k := by
  unfold serCreatorsMetadataFields
  rw [getField_append_of_known _ _ knownCreatorsMetadataKeys k
      (by intro p hp
          simp only [List.mem_cons, List.not_mem_nil, or_false] at hp
          rcases hp with rfl | rfl | rfl <;> rfl) hk]
  rw [deserCreatorsMetadata_extra fields x h]
  exact getField_extraOf fields knownCreatorsMetadataKeys k hk

theorem deserVideoFormat_extra (fields : List (String × Json)) (x : VideoFormat)
    (h : deserVideoFormat (.obj fields) = .ok x) :
    x.extra = extraOf fields knownVideoFormatKeys := by
  simp only [deserVideoFormat] at h
  repeat' split at h
  all_goals first
    | (injection h with h2; rw [← h2])
    | exact Except.noConfusion h

theorem serVideoFormat_preserves_unknown (fields : List (String × Json)) (x : VideoFormat)
    (k : String) (h : deserVideoFormat (.obj fields) = .ok x)
    (hk : knownVideoFormatKeys.contains k = false) :
    getField (serVideoFormatFields x) k = getField fields k := by
  unfold serVideoFormatFields
  rw [getField_append_of_known _ _ knownVideoFormatKeys k
      (by intro p hp
          simp only [List.mem_cons, List.not_mem_nil, or_false] at hp
          rcases hp with rfl | rfl | rfl | rfl <;> rfl) hk]
  rw [deserVideoFormat_extra fields x h]
  exact getField_extraOf fields knownVideoFormatKeys k hk

theorem deserScriptVariant_extra (fields : List (String × Json)) (x : ScriptVariant)
    (h : deserScriptVariant (.obj fields) = .ok x) :
    x.extra = extraOf fields knownScriptVariantKeys := by
  simp only [deserScriptVariant] at h
  repeat' split at h
  all_goals first
    | (injection h with h2; rw [← h2])
    | exact Except.noConfusion h

theorem serScriptVariant_preserves_unknown (fields : List (String × Json)) (x : ScriptVariant)
    (k : String) (h : deserScriptVariant (.obj fields) = .ok x)
    (hk : knownScriptVariantKeys.contains k = false) :
    getField (serScriptVariantFields x) k = getField fields k := by
  unfold serScriptVariantFields
  rw [getField_append_of_known _ _ knownScriptVariantKeys k
      (by intro p hp
          simp only [List.mem_cons, List.not_mem_nil, or_false] at hp
          rcases hp with rfl | rfl | rfl | rfl | rfl | rfl <;> rfl) hk]
  rw [deserScriptVariant_extra fields x h]
  exact getField_extraOf fields knownScriptVariantKeys k hk

theorem deserSubtitleTrack_extra (fields : List (String × Json)) (x : SubtitleTrack)
    (h : deserSubtitleTrack (.obj fields) = .ok x) :
    x.extra = extraOf fields knownSubtitleTrackKeys := by
  simp only [deserSubtitleTrack] at h
  repeat' split at h
  all_goals first
    | (injection h with h2; rw [← h2])
    | exact Except.noConfusion h

theorem serSubtitleTrack_preserves_unknown (fields : List (String × Json)) (x : SubtitleTrack)
    (k : String) (h : deserSubtitleTrack (.obj fields) = .ok x)
    (hk : knownSubtitleTrackKeys.contains k = false) :
    getField (serSubtitleTrackFields x) k = getField fields k := by
  unfold serSubtitleTrackFields
  rw [getField_append_of_known _ _ knownSubtitleTrackKeys k
      (by intro p hp
          simp only [List.mem_cons, List.not_mem_nil, or_false] at hp
          rcases hp with rfl | rfl | rfl | rfl <;> rfl) hk]
  rw [deserSubtitleTrack_extra fields x h]
  exact getField_extraOf fields knownSubtitleTrackKeys k hk

theorem deserFsvMetadata_extra (fields : List (String × Json)) (x : FsvMetadata)
    (h : deserFsvMetadata (.obj fields) = .ok x) :
    x.extra = extraOf fields knownFsvMetadataKeys := by
  simp only [deserFsvMetadata] at h
  repeat' split at h
  all_goals first
    | (injection h with h2; rw [← h2])
    | exact Except.noConfusion h

theorem serFsvMetadata_preserves_unknown (fields : List (String × Json)) (x : FsvMetadata)
    (k : String) (h : deserFsvMetadata (.obj fields) = .ok x)
    (hk : knownFsvMetadataKeys.contains k = false) :
    getField (serFsvMetadataFields x) k = getField fields k := by
  unfold serFsvMetadataFields
  rw [getField_append_of_known _ _ knownFsvMetadataKeys k
      (by intro p hp
          simp only [List.mem_cons, List.not_mem_nil, or_false] at hp
          rcases hp with rfl | rfl | rfl | rfl | rfl | rfl | rfl | rfl <;> rfl) hk]
  rw [deserFsvMetadata_extra fields x h]
  exact getField_extraOf fields knownFsvMetadataKeys k hk

theorem serFsvMetadata_preserves_unknown_after_add (fields : List (String × Json))
    (m : FsvMetadata) (vf : VideoFormat) (k : String)
    (h : deserFsvMetadata (.obj fields) = .ok m)
    (hk : knownFsvMetadataKeys.contains k = false) :
    getField (serFsvMetadataFields (m.add_video_format vf)) k = getField fields k := by
  unfold serFsvMetadataFields
  rw [getField_append_of_known _ _ knownFsvMetadataKeys k
      (by intro p hp
          simp only [List.mem_cons, List.not_mem_nil, or_false] at hp
          rcases hp with rfl | rfl | rfl | rfl | rfl | rfl | rfl | rfl <;> rfl) hk]
  have hadd : (m.add_video_format vf).extra = m.extra := rfl
  rw [hadd, deserFsvMetadata_extra fields m h]
  exact getField_extraOf fields knownFsvMetadataKeys k hk

/-- Claim C9: on every schema entity — the manifest root and the nested
creators object, work-creator records, creator info, and the three descriptor
shapes — deserialization captures every unrecognized object key in the
entity's extension bag and serialization writes it back verbatim, so a
read-(modify-)write cycle preserves every unknown key and its value (the last
conjunct exercises a modification, `add_video_format`, between read and
write). -/
theorem claim_C9_extension_bags_preserved :
    (∀ fields x k, deserCreatorInfo (.obj fields) = .ok x →
        knownCreatorInfoKeys.contains k = false →
        getField (serCreatorInfoFields x) k = getField fields k) ∧
      (∀ fields x k, deserWorkCreators (.obj fields) = .ok x →
        knownWorkCreatorsKeys.contains k = false →
        getField (serWorkCreatorsFields x) k = getField fields k) ∧
      (∀ fields x k, deserCreatorsMetadata (.obj fields) = .ok x →
        knownCreatorsMetadataKeys.contains k = false →
        getField (serCreatorsMetadataFields x) k = getField fields k) ∧
      (∀ fields x k, deserVideoFormat (.obj fields) = .ok x →
        knownVideoFormatKeys.contains k = false →
        getField (serVideoFormatFields x) k = getField fields k) ∧
      (∀ fields x k, deserScriptVariant (.obj fields) = .ok x →
        knownScriptVariantKeys.contains k = false →
        getField (serScriptVariantFields x) k = getField fields k) ∧
      (∀ fields x k, deserSubtitleTrack (.obj fields) = .ok x →
        knownSubtitleTrackKeys.contains k = false →
        getField (serSubtitleTrackFields x) k = getField fields k) ∧
      (∀ fields x k, deserFsvMetadata (.obj fields) = .ok x →
        knownFsvMetadataKeys.contains k = false →
        getField (serFsvMetadataFields x) k = getField fields k) ∧
      (∀ fields m vf k, deserFsvMetadata (.obj fields) = .ok m →
        knownFsvMetadataKeys.contains k = false →
        getField (serFsvMetadataFields (m.add_video_format vf)) k = getField fields k) :=
  ⟨serCreatorInfo_preserves_unknown, serWorkCreators_preserves_unknown,
   serCreatorsMetadata_preserves_unknown, serVideoFormat_preserves_unknown,
   serScriptVariant_preserves_unknown, serSubtitleTrack_preserves_unknown,
   serFsvMetadata_preserves_unknown, serFsvMetadata_preserves_unknown_after_add⟩

def c9_fields : List (String × Json) :=
  [("name", .str "a.mp4"), ("x_rating", .num 5)]

def c9_vf : VideoFormat := ⟨"a.mp4", "", 0, "", [("x_rating", .num 5)]⟩

def c9_mfields : List (String × Json) :=
  [("format_version", .str "1.0.0"), ("video_formats", .arr []),
   ("script_variants", .arr []), ("studio", .str "acme")]

def c9_m : FsvMetadata :=
  ⟨⟨1, 0, 0⟩, [], [], "", CreatorsMetadata.new, [], [], [], [("studio", .str "acme")]⟩

/-- Claim C9, witness: a descriptor object with the unknown key "x_rating"
and a manifest object with the unknown key "studio" both keep those keys,
with their values, across deserialize-then-serialize. -/
theorem claim_C9_witness :
    getField (serVideoFormatFields c9_vf) "x_rating" = getField c9_fields "x_rating" ∧
      getField (serFsvMetadataFields c9_m) "studio" = getField c9_mfields "studio" ∧
      getField c9_fields "x_rating" = some (.num 5) ∧
      getField c9_mfields "studio" = some (.str "acme") := by
  refine ⟨?_, ?_, rfl, rfl⟩
  · exact claim_C9_extension_bags_preserved.2.2.2.1 c9_fields c9_vf "x_rating" rfl rfl
  · exact claim_C9_extension_bags_preserved.2.2.2.2.2.2.1 c9_mfields c9_m "studio" rfl rfl

/-- Claim C10: a manifest object lacking the `video_formats` (or, with a
valid `video_formats` array, the `script_variants`) key fails
deserialization outright, so `validate_fsv` reports
`MetadataInvalid (MalformedJson "missing field ...")` — never
`MissingVideoFormat` / `MissingScriptVariant` — whereas omitting
`extensions`, `tags`, `title`, `creators`, or `subtitle_tracks` is accepted
with empty defaults. -/
theorem claim_C10_required_manifest_lists (fields : List (String × Json)) (vs : String) (v : Version)
    (h1 : getField fields "format_version" = some (.str vs))
    (h2 : Version.parse vs = .ok v)
    (h3 : getField fields "extensions" = none)
    (h4 : getField fields "tags" = none)
    (h5 : getField fields "title" = none)
    (h6 : getField fields "creators" = none) :
    (getField fields "video_formats" = none →
      deserFsvMetadata (.obj fields) = .error (.missingField "video_formats") ∧
      (∀ fs path entries, fs path = some (.zipFile entries) →
        byName entries "metadata.json"
          = some ⟨"metadata.json", .readable, .jsonData (.obj fields)⟩ →
        validate_fsv fs path
          = .ok (.MetadataInvalid (.MalformedJson "missing field video_formats")))) ∧
    (∀ vfs l, getField fields "video_formats" = some (.arr vfs) →
      vfs.mapM deserVideoFormat = .ok l →
      getField fields "script_variants" = none →
      deserFsvMetadata (.obj fields) = .error (.missingField "script_variants")) ∧
    (∀ vfs l svs l2, getField fields "video_formats" = some (.arr vfs) →
      vfs.mapM deserVideoFormat = .ok l →
      getField fields "script_variants" = some (.arr svs) →
      svs.mapM deserScriptVariant = .ok l2 →
      getField fields "subtitle_tracks" = none →
      deserFsvMetadata (.obj fields)
        = .ok ⟨v, [], [], "", CreatorsMetadata.new, l, l2, [],
            extraOf fields knownFsvMetadataKeys⟩) := by
  refine ⟨?_, ?_, ?_⟩
  · intro hvf
    have hd : deserFsvMetadata (.obj fields) = .error (.missingField "video_formats") := by
      simp only [deserFsvMetadata, h1, h2, optStrArr, h3, h4, optStr, h5, h6,
        reqEntityArr, hvf]
    refine ⟨hd, ?_⟩
    intro fs path entries hfs hmeta
    simp only [validate_fsv, hfs, hmeta, hd, DErr.message]
    rfl
  · intro vfs l hvf hml hsv
    simp only [deserFsvMetadata, h1, h2, optStrArr, h3, h4, optStr, h5, h6,
      reqEntityArr, hvf, hml, hsv]
  · intro vfs l svs l2 hvf hml hsv hml2 hst
    simp only [deserFsvMetadata, h1, h2, optStrArr, h3, h4, optStr, h5, h6,
      reqEntityArr, hvf, hml, hsv, hml2, optEntityArr, hst]

def c10a_fields : List (String × Json) :=
  [("format_version", .str "1.0.0"), ("x", .bool true)]

def c10b_fields : List (String × Json) :=
  [("format_version", .str "1.0.0"), ("video_formats", .arr [])]

def c10c_fields : List (String × Json) :=
  [("format_version", .str "1.0.0"), ("video_formats", .arr []),
   ("script_variants", .arr [])]

def c10_entries : List ZipEntry :=
  [⟨"metadata.json", .readable, .jsonData (.obj c10a_fields)⟩]

def c10_path : FPath := ⟨"d", "container", some "fsv"⟩

def c10_fs : FS :=
  fun q => if q = c10_path then some (.zipFile c10_entries) else none

/-- Claim C10, witness: a manifest without `video_formats` deserializes to
the missing-field error and validates to `MalformedJson`; one without
`script_variants` likewise fails; one with both lists but no optional keys
deserializes with empty defaults. -/
theorem claim_C10_witness :
    deserFsvMetadata (.obj c10a_fields) = .error (.missingField "video_formats") ∧
      validate_fsv c10_fs c10_path
        = .ok (.MetadataInvalid (.MalformedJson "missing field video_formats")) ∧
      deserFsvMetadata (.obj c10b_fields) = .error (.missingField "script_variants") ∧
      deserFsvMetadata (.obj c10c_fields)
        = .ok ⟨⟨1, 0, 0⟩, [], [], "", CreatorsMetadata.new, [], [],
            [], extraOf c10c_fields knownFsvMetadataKeys⟩ := by
  have ha := claim_C10_required_manifest_lists c10a_fields "1.0.0" ⟨1, 0, 0⟩
    rfl rfl rfl rfl rfl rfl
  have hb := claim_C10_required_manifest_lists c10b_fields "1.0.0" ⟨1, 0, 0⟩
    rfl rfl rfl rfl rfl rfl
  have hc := claim_C10_required_manifest_lists c10c_fields "1.0.0" ⟨1, 0, 0⟩
    rfl rfl rfl rfl rfl rfl
  refine ⟨(ha.1 rfl).1, (ha.1 rfl).2 c10_fs c10_path c10_entries rfl rfl, ?_, ?_⟩
  · exact hb.2.1 [] [] rfl rfl rfl
  · exact hc.2.2 [] [] [] [] rfl rfl rfl rfl rfl
